import Mathlib

/-!
# midi2vgm: the VGM/OPL3 stream builder of `src/midi2vgm_opl3.cpp`

A shallow embedding of `GD3Info::serialize`, `utf8_to_utf16` and the class
`VGMOPL3` (constructor, `do_sleep`, `writeReg`, `write_gd3`, `fin`), followed by
the properties proved about them.

Conventions of the embedding:

* a byte (`uint8_t`, `char`) is a `Nat` below 256, a `std::string` and the
  contents of a `std::vector<uint8_t>` are a `List Nat`;
* `uint32_t` arithmetic is arithmetic on `Nat` reduced modulo `2 ^ 32`;
* a `std::vector` is its contents together with its capacity and the identity
  of its storage, because `fin` keeps a pointer into the storage across an
  insertion; the capacity chosen by a reallocation is the standard library's
  business and is taken as the parameter `grow`.
-/

namespace Midi2Vgm

/-! ## Machine integers and byte strings -/

/-- The value `UINT16_MAX`. -/
def UINT16_MAX : Nat := 65535

/-- Conversion to `uint32_t`. -/
def u32 (n : Nat) : Nat := n % 2 ^ 32

/-- Conversion to `uint8_t`. -/
def u8 (n : Nat) : Nat := n % 256

/-- The four bytes a little-endian machine stores for the `uint32_t` value `n`. -/
def le32 (n : Nat) : List Nat :=
  [n % 256, n / 256 % 256, n / 65536 % 256, n / 16777216 % 256]

/-- The little-endian 32-bit value held by the four bytes at offset `off` of `b`
(absent bytes read as zero). -/
def field32 (b : List Nat) (off : Nat) : Nat :=
  b.getD off 0 + 256 * b.getD (off + 1) 0 + 65536 * b.getD (off + 2) 0
    + 16777216 * b.getD (off + 3) 0

/-- The store `buf32[off / 4] = v` through a `uint32_t *` that points at the first
byte of `b`: the four bytes at `off` are replaced (`off + 4 <= b.length` in every
use). -/
def poke32 (b : List Nat) (off : Nat) (v : Nat) : List Nat :=
  b.take off ++ le32 (u32 v) ++ b.drop (off + 4)

/-- The bytes of an ASCII string literal. -/
def ascii (s : String) : List Nat := s.toList.map Char.toNat

/-! ## `std::vector<uint8_t>` -/

/-- A `std::vector<uint8_t>`: the elements, the capacity of the storage, and which
allocation the storage is (a counter that a reallocation advances), so that a pointer
obtained from `data()` can be told from a pointer into storage since released. -/
structure ByteVec where
  data : List Nat
  cap : Nat
  storage : Nat
deriving DecidableEq, Repr

/-- The capacity policy of the vector: `grow cap size n` is the capacity of the new
storage when `n` elements are appended to a vector of `size` elements whose capacity
`cap` is too small. -/
abbrev Growth := Nat → Nat → Nat → Nat

/-- The policy of libstdc++ (`_M_check_len`): the size plus the larger of the size and
the number of new elements. -/
def libstdcxxGrowth : Growth := fun _ size n => size + max size n

/-- An empty vector that owns no storage yet (`std::vector<uint8_t> dbuf;` in `main`). -/
def ByteVec.empty : ByteVec := { data := [], cap := 0, storage := 0 }

/-- Whether appending `n` elements makes the vector allocate new storage, which
invalidates every pointer into the old one. -/
def ByteVec.relocates (v : ByteVec) (n : Nat) : Bool :=
  decide (v.cap < v.data.length + n)

/-- The call `v.insert(v.end(), first, last)` with `bs` the range inserted. -/
def ByteVec.insertEnd (grow : Growth) (v : ByteVec) (bs : List Nat) : ByteVec :=
  if v.relocates bs.length then
    { data := v.data ++ bs, cap := grow v.cap v.data.length bs.length,
      storage := v.storage + 1 }
  else
    { v with data := v.data ++ bs }

/-- The call `v.clear()`: no element, same storage. -/
def ByteVec.clear (v : ByteVec) : ByteVec := { v with data := [] }

/-- The call `v.resize(n, 0)`. -/
def ByteVec.resize (grow : Growth) (v : ByteVec) (n : Nat) : ByteVec :=
  if n ≤ v.data.length then { v with data := v.data.take n }
  else v.insertEnd grow (List.replicate (n - v.data.length) 0)

/-- The store `buf32[off / 4] = val` where `buf32` was obtained from `v.data()` when the
storage of `v` was the allocation `buf32`. The store reaches the elements of `v` only
while `v` still uses that allocation. A store through a pointer into released storage
has no defined behaviour in C++: here it leaves the vector as it is, which is what a run
shows as long as the released storage stays mapped, and nothing more is known of it. -/
def ByteVec.store32 (buf32 : Nat) (off val : Nat) (v : ByteVec) : ByteVec :=
  if v.storage = buf32 then { v with data := poke32 v.data off val } else v

/-! ## UTF-8 to UTF-16: `std::wstring_convert<std::codecvt_utf8_utf16<char16_t>>` -/

/-- Whether `b` is a UTF-8 continuation byte (`10xxxxxx`). -/
def isCont (b : Nat) : Bool := decide (0x80 ≤ b) && decide (b < 0xC0)

/-- What the facet's `in` conversion leaves behind: the `char16_t` units written, the
number of bytes consumed, and whether it stopped with `codecvt_base::error` (an
ill-formed sequence) rather than at the end of the input or at a truncated sequence. -/
structure Converted where
  units : List Nat
  count : Nat
  error : Bool
deriving DecidableEq, Repr

/-- The UTF-16 units the facet writes for the code point `c`: the code point itself up
to `0xFFFF`, a surrogate pair above. -/
def write_utf16_code_point (c : Nat) : List Nat :=
  if c ≤ 0xFFFF then [c] else [0xD7C0 + (c >>> 10), 0xDC00 + (c &&& 0x3FF)]

/-- One code point of `len` bytes was read: its units go first. -/
def Converted.emit (c len : Nat) (r : Converted) : Converted :=
  { units := write_utf16_code_point c ++ r.units, count := len + r.count, error := r.error }

/-- What reading one code point from the front of the input gives: the code point and
the number of bytes it took, or a sequence cut short by the end of the input, or an
ill-formed sequence. -/
inductive Utf8Read where
  | codepoint (c len : Nat)
  | incomplete_mb_character
  | invalid_mb_sequence
deriving DecidableEq, Repr

/-- Reads one code point from the front of `src`, as the facet of libstdc++ 12 does: the
lead byte gives the length of the sequence, and a sequence longer than the input is
incomplete whatever its bytes are; overlong forms and values above `0x10FFFF` are
ill-formed, while the three-byte forms of the surrogates `0xD800` to `0xDFFF` are read
as code points. -/
def read_utf8_code_point (src : List Nat) : Utf8Read :=
  let avail := src.length
  let c1 := src.getD 0 0
  let c2 := src.getD 1 0
  let c3 := src.getD 2 0
  let c4 := src.getD 3 0
  if avail = 0 then Utf8Read.incomplete_mb_character
  else if c1 < 0x80 then Utf8Read.codepoint c1 1
  else if c1 < 0xC2 then Utf8Read.invalid_mb_sequence
  else if c1 < 0xE0 then
    if avail < 2 then Utf8Read.incomplete_mb_character
    else if !isCont c2 then Utf8Read.invalid_mb_sequence
    else Utf8Read.codepoint ((c1 - 0xC0) * 64 + (c2 - 0x80)) 2
  else if c1 < 0xF0 then
    if avail < 3 then Utf8Read.incomplete_mb_character
    else if !isCont c2 then Utf8Read.invalid_mb_sequence
    else if c1 = 0xE0 ∧ c2 < 0xA0 then Utf8Read.invalid_mb_sequence
    else if !isCont c3 then Utf8Read.invalid_mb_sequence
    else Utf8Read.codepoint ((c1 - 0xE0) * 4096 + (c2 - 0x80) * 64 + (c3 - 0x80)) 3
  else if c1 < 0xF5 then
    if avail < 4 then Utf8Read.incomplete_mb_character
    else if !isCont c2 then Utf8Read.invalid_mb_sequence
    else if c1 = 0xF0 ∧ c2 < 0x90 then Utf8Read.invalid_mb_sequence
    else if c1 = 0xF4 ∧ 0x90 ≤ c2 then Utf8Read.invalid_mb_sequence
    else if !isCont c3 then Utf8Read.invalid_mb_sequence
    else if !isCont c4 then Utf8Read.invalid_mb_sequence
    else Utf8Read.codepoint
      ((c1 - 0xF0) * 262144 + (c2 - 0x80) * 4096 + (c3 - 0x80) * 64 + (c4 - 0x80)) 4
  else Utf8Read.invalid_mb_sequence

/-- The loop of the facet `std::codecvt_utf8_utf16<char16_t>` reading UTF-8: code points
are read one after the other until the input ends (`ok`), a sequence is cut short
(`partial`) or is ill-formed (`error`). One unit of fuel is spent per code point. -/
def utf16_in_loop : Nat → List Nat → Converted
  | 0, _ => { units := [], count := 0, error := false }
  | fuel + 1, src =>
    if src = [] then { units := [], count := 0, error := false }
    else
      match read_utf8_code_point src with
      | Utf8Read.incomplete_mb_character => { units := [], count := 0, error := false }
      | Utf8Read.invalid_mb_sequence => { units := [], count := 0, error := true }
      | Utf8Read.codepoint c len => (utf16_in_loop fuel (src.drop len)).emit c len

/-- The conversion of the whole string: every code point takes at least one byte, so
the loop is given one iteration per byte. -/
def utf16_in (src : List Nat) : Converted := utf16_in_loop src.length src

/-- The exceptions `utf8_to_utf16` lets out: the `std::range_error` of `from_bytes`, and
its own `std::runtime_error("incomplete conversion")`. -/
inductive ConvError where
  | range_error
  | incomplete_conversion
deriving DecidableEq, Repr

/-- The function `utf8_to_utf16`: `from_bytes` throws when the facet reports an error,
and the function throws when fewer bytes were converted than the string holds. -/
def utf8_to_utf16 (utf8 : List Nat) : Except ConvError (List Nat) :=
  let cnv := utf16_in utf8
  if cnv.error then Except.error ConvError.range_error
  else if cnv.count < utf8.length then Except.error ConvError.incomplete_conversion
  else Except.ok cnv.units

/-! ## `GD3Info` -/

/-- The structure `GD3Info`: eleven `std::string` members. -/
structure GD3Info where
  title_en : List Nat
  title : List Nat
  album_en : List Nat
  album : List Nat
  system_en : List Nat
  system : List Nat
  author_en : List Nat
  author : List Nat
  date : List Nat
  converted_by : List Nat
  notes : List Nat
deriving DecidableEq, Repr

/-- The initializer list that `serialize` iterates over. -/
def GD3Info.fields (g : GD3Info) : List (List Nat) :=
  [g.title_en, g.title, g.album_en, g.album, g.system_en, g.system,
   g.author_en, g.author, g.date, g.converted_by, g.notes]

/-- The array `magic` of `serialize`, without its terminating zero: twelve bytes. -/
def gd3Magic : List Nat := [0x47, 0x64, 0x33, 0x20, 0x00, 0x01, 0x00, 0x00, 0x20, 0x20, 0x20, 0x20]

/-- The inner loop of `serialize`: two `push_back` per `char16_t`. -/
def pushUnits : List Nat → List Nat → List Nat
  | [], ret => ret
  | iu :: rest, ret => pushUnits rest (ret ++ [u8 (iu &&& 0xff), u8 (iu >>> 8)])

/-- The outer loop of `serialize` over the fields still to do; `ret` is the vector
built so far. -/
def serializeLoop : List (List Nat) → List Nat → Except ConvError (List Nat)
  | [], ret => Except.ok ret
  | it :: rest, ret =>
    match utf8_to_utf16 it with
    | Except.error e => Except.error e
    | Except.ok u16str => serializeLoop rest (pushUnits u16str ret ++ [0, 0])

/-- The method `GD3Info::serialize`. -/
def GD3Info.serialize (g : GD3Info) : Except ConvError (List Nat) :=
  match serializeLoop g.fields gd3Magic with
  | Except.error e => Except.error e
  | Except.ok ret => Except.ok (poke32 ret 8 (ret.length - 12))

/-! ## The globals read by `write_gd3` -/

/-- The table `volModelDescs`. -/
def volModelDescs : List (List Nat) :=
  [ascii "AUTO: Automatically chosen by the bank used",
   ascii "Generic: Linearized scaling model, most standard",
   ascii "NativeOPL3: Native OPL3's logarithmic volume scale",
   ascii "DMX: Logarithmic volume scale using volume map table. Used in DMX",
   ascii "APOGEE: Logarithmic volume scale, used in Apogee Sound System",
   ascii "9X: Approximated and shorted volume map table (SB16 driver). Similar to general, but has less granularity",
   ascii "DMX_Fixed: DMX model with a fixed bug of AM voices",
   ascii "APOGEE_Fixed: Apogee model with a fixed bug of AM voices",
   ascii "AIL: Audio Interface Library volume scaling model",
   ascii "9X_GENERIC_FM: Approximated and shorted volume map table (Generic FM driver). Similar to general, but has less granularity",
   ascii "HMI: HMI Sound Operating System volume scaling model",
   ascii "HMI_OLD: HMI Sound Operating System volume scaling model, older variant with bugs"]

/-- The globals `opt_input`, `opt_bank` and `opt_vol_model`, and the `title` of every
entry of the bank table `g_embeddedBanks`, which libADLMIDI provides. -/
structure Globals where
  opt_input : List Nat
  opt_bank : Int
  opt_vol_model : Int
  g_embeddedBanks : List (List Nat)
deriving DecidableEq, Repr

/-- The characters of a C string held in `s`: those before the first zero byte. -/
def cstr (s : List Nat) : List Nat := s.takeWhile (fun b => b != 0)

/-- The function `basename` of `<libgen.h>` on the C string `path`: `.` for the empty
string, `/` for a string of slashes only, otherwise the last component with trailing
slashes dropped. -/
def basename (path : List Nat) : List Nat :=
  if path = [] then ascii "."
  else
    let p := (path.reverse.dropWhile (fun b => b == 0x2f)).reverse
    if p = [] then ascii "/"
    else (p.reverse.takeWhile (fun b => b != 0x2f)).reverse

/-- The conversion `%d` of `snprintf`. -/
def formatInt (i : Int) : List Nat :=
  if i < 0 then 0x2d :: (Nat.toDigits 10 i.natAbs).map Char.toNat
  else (Nat.toDigits 10 i.natAbs).map Char.toNat

/-- The element `table[i]` for an `int` index, when it exists. -/
def tableAt (table : List (List Nat)) (i : Int) : Option (List Nat) :=
  if i < 0 then none else table.get? i.toNat

/-- The text `snprintf(note, 256, ...)` leaves in `note` in `write_gd3`: the formatted
text cut to 255 characters. -/
def defaultNotes (G : Globals) (bankTitle volModel : List Nat) : List Nat :=
  (ascii "\r\nConverted with midi2vgm_opl3 - https://github.com/SudoMaker/midi2vgm\r\n"
    ++ ascii "- Filename: " ++ basename (cstr G.opt_input)
    ++ ascii "\r\n- Bank: " ++ formatInt G.opt_bank ++ ascii " - " ++ cstr bankTitle
    ++ ascii "\r\n- VolModel: " ++ formatInt G.opt_vol_model ++ ascii " - " ++ cstr volModel
    ++ ascii "\r\n").take 255

/-! ## The class `VGMOPL3` -/

/-- The data members of `VGMOPL3`. -/
structure VGMOPL3 where
  dbuf_ : ByteVec
  gd3_info_ : GD3Info
  sample_count : Nat
  slept_samples : Nat
deriving DecidableEq, Repr

/-- How a method that can throw ends: normally, by an exception that leaves the object
as given, or with no defined behaviour (a failed `assert`, an index outside a table). -/
inductive Outcome where
  | done (s : VGMOPL3)
  | threw (e : ConvError) (s : VGMOPL3)
  | undefined
deriving DecidableEq, Repr

/-- The loop of `do_sleep` on `slept_samples` and `dbuf_`. One unit of fuel is spent per
iteration. -/
def sleepLoop (grow : Growth) : Nat → Nat → ByteVec → Nat × ByteVec
  | 0, slept_samples, dbuf => (slept_samples, dbuf)
  | fuel + 1, slept_samples, dbuf =>
    if slept_samples = 0 then (slept_samples, dbuf)
    else
      let vgm_samples := if slept_samples > UINT16_MAX then UINT16_MAX else slept_samples
      sleepLoop grow fuel (slept_samples - vgm_samples)
        (dbuf.insertEnd grow [0x61, u8 (vgm_samples &&& 0xff), u8 (vgm_samples >>> 8)])

/-- The method `do_sleep`. Every iteration of its loop lowers `slept_samples` by at
least one, so the loop is given `slept_samples` iterations. -/
def do_sleep (grow : Growth) (s : VGMOPL3) : VGMOPL3 :=
  let r := sleepLoop grow s.slept_samples s.slept_samples s.dbuf_
  { s with
    sample_count := u32 (s.sample_count + s.slept_samples)
    slept_samples := r.1
    dbuf_ := r.2 }

/-- The method `writeReg`. -/
def writeReg (grow : Growth) (addr data : Nat) (s : VGMOPL3) : VGMOPL3 :=
  let s1 := do_sleep grow s
  let buf0 := if addr &&& 0x100 ≠ 0 then 0x5f else 0x5e
  { s1 with dbuf_ := s1.dbuf_.insertEnd grow [buf0, u8 (addr &&& 0xff), data] }

/-- The statement `vgmopl3->slept_samples++` of `main`, taken `n` times. -/
def sleep (n : Nat) (s : VGMOPL3) : VGMOPL3 :=
  { s with slept_samples := u32 (s.slept_samples + n) }

/-- The constructor of `VGMOPL3` on the vector `dbuf` it is given a reference to. -/
def VGMOPL3.construct (grow : Growth) (dbuf : ByteVec) (gd3_info : GD3Info) : VGMOPL3 :=
  let d := ((dbuf.clear).insertEnd grow (ascii "Vgm ")).resize grow 128
  let buf32 := d.storage
  let d := d.store32 buf32 0x00 0x206d6756
  let d := d.store32 buf32 0x08 0x00000151
  let d := d.store32 buf32 0x34 0x0000004c
  let d := d.store32 buf32 0x5c 14318180
  let s : VGMOPL3 := { dbuf_ := d, gd3_info_ := gd3_info, sample_count := 0, slept_samples := 0 }
  let s := writeReg grow 0x004 96 s
  let s := writeReg grow 0x004 128 s
  let s := writeReg grow 0x105 0x0 s
  let s := writeReg grow 0x105 0x1 s
  let s := writeReg grow 0x105 0x0 s
  let s := writeReg grow 0x001 32 s
  writeReg grow 0x105 0x1 s

/-- The first statement of `write_gd3`: empty notes are replaced by the generated text.
There is no result when the `assert` on `opt_input` fails or an index is outside its
table. -/
def fillNotes (G : Globals) (g : GD3Info) : Option GD3Info :=
  if g.notes = [] then
    if G.opt_input = [] then none
    else
      match tableAt G.g_embeddedBanks G.opt_bank, tableAt volModelDescs G.opt_vol_model with
      | some bankTitle, some volModel => some { g with notes := defaultNotes G bankTitle volModel }
      | _, _ => none
  else some g

/-- The method `write_gd3`. -/
def write_gd3 (grow : Growth) (G : Globals) (s : VGMOPL3) : Outcome :=
  match fillNotes G s.gd3_info_ with
  | none => Outcome.undefined
  | some g =>
    match g.serialize with
    | Except.error e => Outcome.threw e { s with gd3_info_ := g }
    | Except.ok buf =>
      Outcome.done { s with gd3_info_ := g, dbuf_ := s.dbuf_.insertEnd grow buf }

/-- The method `fin`. The pointer `buf32` is taken after `do_sleep` and is used again
after `write_gd3` has inserted into the vector. -/
def fin (grow : Growth) (G : Globals) (s : VGMOPL3) : Outcome :=
  let s1 := do_sleep grow s
  let buf32 := s1.dbuf_.storage
  let s2 := { s1 with dbuf_ := s1.dbuf_.store32 buf32 0x14 (s1.dbuf_.data.length - 0x14) }
  match write_gd3 grow G s2 with
  | Outcome.undefined => Outcome.undefined
  | Outcome.threw e s3 => Outcome.threw e s3
  | Outcome.done s3 =>
    let d := s3.dbuf_.store32 buf32 0x04 (s3.dbuf_.data.length - 0x04)
    let d := d.store32 buf32 0x18 s3.sample_count
    Outcome.done { s3 with dbuf_ := d }

/-! ## Event sequences -/

/-- What the playback engine does to the chip: let one or more samples pass, or write a
register. -/
inductive Event where
  | sleep (n : Nat)
  | writeReg (addr data : Nat)
deriving DecidableEq, Repr

/-- One event applied to the builder. -/
def applyEvent (grow : Growth) (s : VGMOPL3) : Event → VGMOPL3
  | Event.sleep n => sleep n s
  | Event.writeReg addr data => writeReg grow addr data s

/-- A sequence of events applied to the builder, first event first. -/
def run (grow : Growth) (s : VGMOPL3) (evs : List Event) : VGMOPL3 :=
  evs.foldl (applyEvent grow) s

/-! ## Reading the command stream back -/

/-- The bytes of `q` wait commands of 65535 samples each. -/
def fullWaits : Nat → List Nat
  | 0 => []
  | q + 1 => [0x61, 0xff, 0xff] ++ fullWaits q

/-- A command of the VGM stream as a reader sees it: a register write with its opcode
byte, or a wait of `n` samples. -/
inductive Cmd where
  | write (opcode reg data : Nat)
  | wait (n : Nat)
deriving DecidableEq, Repr

/-- Reads a byte string as consecutive 3-byte commands; `none` when a group does not
start with one of the opcodes `0x5e`, `0x5f`, `0x61` or the string ends inside a
group. -/
def parseCmds : List Nat → Option (List Cmd)
  | [] => some []
  | op :: a :: b :: rest =>
    if op = 0x61 then (parseCmds rest).map (fun cs => Cmd.wait (a + 256 * b) :: cs)
    else if op = 0x5e ∨ op = 0x5f then (parseCmds rest).map (fun cs => Cmd.write op a b :: cs)
    else none
  | _ => none

/-- A register write as it is found in the stream, with the number of samples waited
since the write before it. -/
structure TimedWrite where
  delay : Nat
  opcode : Nat
  reg : Nat
  data : Nat
deriving DecidableEq, Repr

/-- The writes of a command list in order, each with the sum of the waits read since the
previous write, and the sum of the waits after the last write; `acc` is the sum of the
waits already read. -/
def timelineOfCmds : List Cmd → Nat → List TimedWrite × Nat
  | [], acc => ([], acc)
  | Cmd.wait n :: rest, acc => timelineOfCmds rest (acc + n)
  | Cmd.write op reg data :: rest, acc =>
    ({ delay := acc, opcode := op, reg := reg, data := data } :: (timelineOfCmds rest 0).1,
     (timelineOfCmds rest 0).2)

/-- The writes submitted by an event sequence in order, each with the total of the
sleeps submitted since the previous write, and the total of the sleeps after the last
write; `acc` is the total of the sleeps already submitted. -/
def timelineOfEvents : List Event → Nat → List TimedWrite × Nat
  | [], acc => ([], acc)
  | Event.sleep n :: rest, acc => timelineOfEvents rest (acc + n)
  | Event.writeReg addr data :: rest, acc =>
    ({ delay := acc, opcode := if addr &&& 0x100 ≠ 0 then 0x5f else 0x5e,
       reg := addr &&& 0xff, data := data } :: (timelineOfEvents rest 0).1,
     (timelineOfEvents rest 0).2)

/-- Whether every run of consecutive sleeps of the sequence, the first one counted from
`acc`, sums to less than `2 ^ 32`. -/
def runsBounded : List Event → Nat → Bool
  | [], acc => decide (acc < 2 ^ 32)
  | Event.sleep n :: rest, acc => runsBounded rest (acc + n)
  | Event.writeReg _ _ :: rest, acc => decide (acc < 2 ^ 32) && runsBounded rest 0

/-- The seven register writes of the constructor as a reader sees them. -/
def bootstrapWrites : List TimedWrite :=
  [⟨0, 0x5e, 0x04, 96⟩, ⟨0, 0x5e, 0x04, 128⟩, ⟨0, 0x5f, 0x05, 0⟩, ⟨0, 0x5f, 0x05, 1⟩,
   ⟨0, 0x5f, 0x05, 0⟩, ⟨0, 0x5e, 0x01, 32⟩, ⟨0, 0x5f, 0x05, 1⟩]

/-- The total of the sleep amounts of an event sequence. -/
def sleepTotal : List Event → Nat
  | [] => 0
  | Event.sleep n :: rest => n + sleepTotal rest
  | Event.writeReg _ _ :: rest => sleepTotal rest

/-- A `GD3Info` with every field empty. -/
def GD3Info.blank : GD3Info :=
  { title_en := [], title := [], album_en := [], album := [], system_en := [], system := [],
    author_en := [], author := [], date := [], converted_by := [], notes := [] }

/-- The bytes of wait commands with the sample counts `ws`, the count low byte first. -/
def waitBytes : List Nat → List Nat
  | [] => []
  | w :: ws => [0x61, w % 256, w / 256] ++ waitBytes ws

/-- The greedy split of a delay of `p` samples into counts of at most 65535. -/
def greedyValues (p : Nat) : List Nat :=
  List.replicate (p / 65535) 65535 ++ (if 0 < p % 65535 then [p % 65535] else [])

/-- The builder `main` creates: constructed on an empty vector, with the capacity policy
of libstdc++ and empty metadata. -/
def freshBuilder : VGMOPL3 :=
  VGMOPL3.construct libstdcxxGrowth ByteVec.empty GD3Info.blank

/-- The 128 header bytes the constructor leaves: zero but for the four fields it sets. -/
def headerBytes : List Nat :=
  le32 0x206d6756 ++ List.replicate 4 0 ++ le32 0x00000151 ++ List.replicate 40 0
    ++ le32 0x0000004c ++ List.replicate 36 0 ++ le32 14318180 ++ List.replicate 32 0

/-- The 21 bytes of the seven register writes of the constructor. -/
def bootstrapBytes : List Nat :=
  [0x5e, 0x04, 0x60, 0x5e, 0x04, 0x80, 0x5f, 0x05, 0x00, 0x5f, 0x05, 0x01,
   0x5f, 0x05, 0x00, 0x5e, 0x01, 0x20, 0x5f, 0x05, 0x01]

/-! ## Unicode text and the GD3 layout -/

/-- A Unicode scalar value: a code point up to `0x10FFFF` that is not a surrogate. -/
def IsScalar (c : Nat) : Prop := c < 0xD800 ∨ (0xE000 ≤ c ∧ c < 0x110000)

instance : DecidablePred IsScalar := fun c => by
  unfold IsScalar
  infer_instance

/-- The UTF-8 encoding of one scalar value. -/
def utf8EncodeCp (c : Nat) : List Nat :=
  if c < 0x80 then [c]
  else if c < 0x800 then [0xC0 + c / 64, 0x80 + c % 64]
  else if c < 0x10000 then [0xE0 + c / 4096, 0x80 + c / 64 % 64, 0x80 + c % 64]
  else [0xF0 + c / 262144, 0x80 + c / 4096 % 64, 0x80 + c / 64 % 64, 0x80 + c % 64]

/-- The UTF-8 encoding of a text, given as its scalar values. -/
def utf8Encode : List Nat → List Nat
  | [] => []
  | c :: cs => utf8EncodeCp c ++ utf8Encode cs

/-- The UTF-16 code units of one scalar value: itself below `0x10000`, otherwise the
high and the low surrogate of `c - 0x10000`. -/
def utf16Units (c : Nat) : List Nat :=
  if c < 0x10000 then [c] else [0xD800 + (c - 0x10000) / 1024, 0xDC00 + (c - 0x10000) % 1024]

/-- The UTF-16 code units of a text. -/
def utf16Encode : List Nat → List Nat
  | [] => []
  | c :: cs => utf16Units c ++ utf16Encode cs

/-- Code units written low byte first. -/
def unitsLE : List Nat → List Nat
  | [] => []
  | u :: us => [u % 256, u / 256] ++ unitsLE us

/-- One field of the GD3 body: the text in UTF-16, low byte first, and the two bytes
`00 00`. -/
def gd3Field (text : List Nat) : List Nat := unitsLE (utf16Encode text) ++ [0, 0]

/-- The GD3 body: the fields one after the other. -/
def gd3Body : List (List Nat) → List Nat
  | [] => []
  | t :: ts => gd3Field t ++ gd3Body ts

/-- The sum over the texts of the number of UTF-16 code units plus one. -/
def unitCount : List (List Nat) → Nat
  | [] => 0
  | t :: ts => ((utf16Encode t).length + 1) + unitCount ts

/-- A `GD3Info` whose English title is 2147483648 letters `A`, every other field
empty. -/
def hugeTitleInfo : GD3Info := { GD3Info.blank with title_en := List.replicate (2 ^ 31) 0x41 }

/-- A `GD3Info` with an accented letter as title and an emoji above `U+FFFF` as notes. -/
def sampleInfo : GD3Info :=
  { GD3Info.blank with title := [0xC3, 0xA9], notes := [0xF0, 0x9F, 0x98, 0x80] }

/-- The texts of `sampleInfo`, field by field. -/
def sampleTexts : List (List Nat) := [[], [0xE9], [], [], [], [], [], [], [], [], [0x1F600]]

/-! ## Reading a GD3 block back -/

/-- The 16-bit units of a byte string read low byte first. -/
def unitsOfBytes : List Nat → List Nat
  | lo :: hi :: rest => (lo + 256 * hi) :: unitsOfBytes rest
  | _ => []

/-- Splits off the string that ends at the first zero unit: the string and what follows
its terminator; `none` when there is no zero unit. -/
def takeString : List Nat → Option (List Nat × List Nat)
  | [] => none
  | u :: us => if u = 0 then some ([], us) else (takeString us).map (fun p => (u :: p.1, p.2))

/-- Splits off `n` zero-terminated strings. -/
def takeStrings : Nat → List Nat → Option (List (List Nat) × List Nat)
  | 0, us => some ([], us)
  | n + 1, us =>
    match takeString us with
    | none => none
    | some p => (takeStrings n p.2).map (fun q => (p.1 :: q.1, q.2))

/-- The scalar values of a UTF-16 string: a high surrogate followed by a low surrogate
is one value above `0xFFFF`, any other unit is a value by itself. -/
def utf16Decode : List Nat → List Nat
  | [] => []
  | [u] => [u]
  | u :: v :: rest =>
    if 0xD800 ≤ u ∧ u < 0xDC00 ∧ 0xDC00 ≤ v ∧ v < 0xE000 then
      (0x10000 + (u - 0xD800) * 1024 + (v - 0xDC00)) :: utf16Decode rest
    else u :: utf16Decode (v :: rest)

/-- What a reader gets from a GD3 block: the field texts as UTF-8, the number of bytes
of the body the eleven strings and their terminators take, and the value of the length
field. -/
structure Gd3Parsed where
  fields : List (List Nat)
  consumed : Nat
  lengthField : Nat
deriving DecidableEq, Repr

/-- Reads a GD3 block: the 12-byte header is skipped, the body is split into eleven
strings each ended by the first `00 00` unit, and each is decoded from UTF-16LE. -/
def parseGd3 (block : List Nat) : Option Gd3Parsed :=
  match takeStrings 11 (unitsOfBytes (block.drop 12)) with
  | none => none
  | some p =>
    some { fields := p.1.map (fun us => utf8Encode (utf16Decode us))
           consumed := 2 * (p.1.map (fun us => us.length + 1)).sum
           lengthField := field32 block 8 }

/-- A `GD3Info` whose English title is the one character `U+0000`. -/
def nulTitleInfo : GD3Info := { GD3Info.blank with title_en := [0x00] }

/-! ## What `main` hands to the output file -/

/-- The builder a method left behind when it returned normally. -/
def Outcome.state? : Outcome → Option VGMOPL3
  | Outcome.done s => some s
  | Outcome.threw _ _ => none
  | Outcome.undefined => none

/-- Globals as a run of `midi2vgm_opl3 song.mid out.vgm` sets them: the default bank 58,
here with the title `Bank58`, and the default volume model 0. -/
def sampleGlobals : Globals :=
  { opt_input := ascii "song.mid", opt_bank := 58, opt_vol_model := 0,
    g_embeddedBanks := List.replicate 59 (ascii "Bank58") }

/-- Metadata with the one-letter notes `A`, every other field empty. -/
def shortNotesInfo : GD3Info := { GD3Info.blank with notes := [0x41] }

/-! ## Operation sequences with explicit flushes -/

/-- An operation on the builder: the two events of the playback engine, and a call of
`do_sleep` by itself. -/
inductive Op where
  | sleep (n : Nat)
  | writeReg (addr data : Nat)
  | do_sleep
deriving DecidableEq, Repr

/-- One operation applied to the builder. -/
def applyOp (grow : Growth) (s : VGMOPL3) : Op → VGMOPL3
  | Op.sleep n => sleep n s
  | Op.writeReg addr data => writeReg grow addr data s
  | Op.do_sleep => do_sleep grow s

/-- A sequence of operations applied to the builder, first operation first. -/
def runOps (grow : Growth) (s : VGMOPL3) (ops : List Op) : VGMOPL3 :=
  ops.foldl (applyOp grow) s

/-- The buffer a method left behind, whether it returned or threw. -/
def Outcome.buffer? : Outcome → Option (List Nat)
  | Outcome.done s => some s.dbuf_.data
  | Outcome.threw _ s => some s.dbuf_.data
  | Outcome.undefined => none

/-- The exception a method ended with, and the builder it left behind. -/
def Outcome.thrown? : Outcome → Option (ConvError × VGMOPL3)
  | Outcome.done _ => none
  | Outcome.threw e s => some (e, s)
  | Outcome.undefined => none

/-- Metadata with a title of `2 ^ 31` letters `A` and the one-letter notes `A`. -/
def hugeTitleNotesInfo : GD3Info :=
  { GD3Info.blank with title_en := List.replicate (2 ^ 31) 0x41, notes := [0x41] }

/-- A run of the builder with a delay above 65535, a write, an explicit flush and a
pending delay at the end. -/
def sampleOps : List Op := [Op.sleep 70000, Op.writeReg 0x105 1, Op.do_sleep, Op.sleep 3]

/-- The builder `fin` leaves after `sampleOps` on the builder `main` creates. -/
def sampleFinal : VGMOPL3 :=
  ((fin libstdcxxGrowth sampleGlobals (runOps libstdcxxGrowth
    (VGMOPL3.construct libstdcxxGrowth ByteVec.empty GD3Info.blank) sampleOps)).state?).getD
    freshBuilder

/-- The attribution text as the specification words it: the converter line, then the
file name, the bank index and title, and the volume-model index and title, each on a
line of its own. -/
def attributionText (name : List Nat) (bank : Int) (bankTitle : List Nat) (vol : Int)
    (volTitle : List Nat) : List Nat :=
  ascii "\r\nConverted with midi2vgm_opl3 - https://github.com/SudoMaker/midi2vgm\r\n- Filename: "
    ++ name ++ ascii "\r\n- Bank: " ++ formatInt bank ++ ascii " - " ++ bankTitle
    ++ ascii "\r\n- VolModel: " ++ formatInt vol ++ ascii " - " ++ volTitle ++ ascii "\r\n"

/-- Globals as a run of `midi2vgm_opl3 -v 9 dir/longer_song.mid out.vgm` sets them: the
default bank 58, here with the title `Bank58`, and the volume model 9. -/
def longNotesGlobals : Globals :=
  { opt_input := ascii "dir/longer_song.mid", opt_bank := 58, opt_vol_model := 9,
    g_embeddedBanks := List.replicate 59 (ascii "Bank58") }

/-- Globals as a run on the input `a` followed by 58 letters `あ` and `.mid` sets them: a
file name that is valid UTF-8, the default bank 58 and the default volume model 0. -/
def wideNameGlobals : Globals :=
  { opt_input := utf8Encode (0x61 :: (List.replicate 58 0x3042 ++ [0x2e, 0x6d, 0x69, 0x64])),
    opt_bank := 58, opt_vol_model := 0,
    g_embeddedBanks := List.replicate 59 (ascii "Bank58") }

/-! # Properties -/

/-! ## The vector -/

@[simp] theorem insertEnd_data (grow : Growth) (v : ByteVec) (bs : List Nat) :
    (v.insertEnd grow bs).data = v.data ++ bs := by
  unfold ByteVec.insertEnd
  split <;> rfl

@[simp] theorem store32_storage (b off val : Nat) (v : ByteVec) :
    (v.store32 b off val).storage = v.storage := by
  unfold ByteVec.store32
  split <;> rfl

theorem store32_data_same (off val : Nat) (v : ByteVec) :
    (v.store32 v.storage off val).data = poke32 v.data off val := by
  simp [ByteVec.store32]

theorem store32_data_of_eq {b : Nat} (off val : Nat) (v : ByteVec) (h : v.storage = b) :
    (v.store32 b off val).data = poke32 v.data off val := by
  simp [ByteVec.store32, h]

theorem store32_of_ne {b : Nat} (off val : Nat) (v : ByteVec) (h : v.storage ≠ b) :
    v.store32 b off val = v := by
  simp [ByteVec.store32, h]

/-! ## `do_sleep` -/

theorem and_ff_eq_mod (x : Nat) : x &&& 0xff = x % 256 :=
  Nat.and_pow_two_sub_one_eq_mod x 8

theorem shr8_eq_div (x : Nat) : x >>> 8 = x / 256 :=
  Nat.shiftRight_eq_div_pow x 8

theorem sleepLoop_zero (grow : Growth) (fuel : Nat) (v : ByteVec) :
    sleepLoop grow fuel 0 v = (0, v) := by
  cases fuel <;> simp [sleepLoop]

/-- The loop of `do_sleep`, given at least `slept` iterations, ends with nothing left to
sleep and has appended the wait commands of the greedy split of `slept`. -/
theorem sleepLoop_spec (grow : Growth) :
    ∀ (fuel q r : Nat) (v : ByteVec), r < 65535 → 65535 * q + r ≤ fuel →
      (sleepLoop grow fuel (65535 * q + r) v).1 = 0 ∧
      (sleepLoop grow fuel (65535 * q + r) v).2.data
        = v.data ++ fullWaits q ++ (if 0 < r then [0x61, r &&& 0xff, r >>> 8] else []) := by
  intro fuel
  induction fuel with
  | zero =>
    intro q r v hr hle
    have hq : q = 0 := by omega
    have hr0 : r = 0 := by omega
    subst hq; subst hr0
    simp [sleepLoop, fullWaits]
  | succ fuel ih =>
    intro q r v hr hle
    cases q with
    | zero =>
      by_cases hr0 : r = 0
      · subst hr0
        simp [sleepLoop, fullWaits]
      · have h1 : ¬ (r > UINT16_MAX) := by unfold UINT16_MAX; omega
        have h2 : r % 256 % 256 = r % 256 := by omega
        have h3 : r / 256 % 256 = r / 256 := by omega
        simp [sleepLoop, hr0, h1, sleepLoop_zero, fullWaits, u8, and_ff_eq_mod, shr8_eq_div,
          h3, Nat.pos_of_ne_zero hr0]
    | succ q =>
      have hne : ¬ (65535 * (q + 1) + r = 0) := by omega
      have hsub : (65535 * (q + 1) + r) - 65535 = 65535 * q + r := by omega
      have hchunk : (if 65535 * (q + 1) + r > UINT16_MAX then UINT16_MAX
          else 65535 * (q + 1) + r) = 65535 := by
        unfold UINT16_MAX
        split <;> omega
      have ih2 := ih q r (v.insertEnd grow [0x61, 0xff, 0xff]) hr (by omega)
      rw [sleepLoop]
      simp only [hne, if_false, hchunk, hsub]
      have hb : [0x61, u8 (65535 &&& 0xff), u8 (65535 >>> 8)] = [0x61, 0xff, 0xff] := by decide
      rw [hb]
      refine ⟨ih2.1, ?_⟩
      rw [ih2.2]
      simp [fullWaits]

theorem do_sleep_sample_count (grow : Growth) (s : VGMOPL3) :
    (do_sleep grow s).sample_count = u32 (s.sample_count + s.slept_samples) := rfl

theorem do_sleep_spec (grow : Growth) (s : VGMOPL3) (q r : Nat) (hr : r < 65535)
    (hp : s.slept_samples = 65535 * q + r) :
    (do_sleep grow s).slept_samples = 0 ∧
    (do_sleep grow s).dbuf_.data
      = s.dbuf_.data ++ fullWaits q ++ (if 0 < r then [0x61, r &&& 0xff, r >>> 8] else []) := by
  have h := sleepLoop_spec grow s.slept_samples q r s.dbuf_ hr (by omega)
  unfold do_sleep
  simp only [hp] at h ⊢
  exact h

theorem do_sleep_idle (grow : Growth) (s : VGMOPL3) (h : s.slept_samples = 0) :
    (do_sleep grow s).dbuf_ = s.dbuf_ ∧ (do_sleep grow s).slept_samples = 0 := by
  unfold do_sleep
  simp [h, sleepLoop]

/-! ## Reading wait commands -/

theorem parseCmds_wait_cons (a b : Nat) (rest : List Nat) :
    parseCmds (0x61 :: a :: b :: rest)
      = (parseCmds rest).map (fun cs => Cmd.wait (a + 256 * b) :: cs) := by
  simp [parseCmds]

theorem parseCmds_fullWaits (q : Nat) (rest : List Nat) :
    parseCmds (fullWaits q ++ rest)
      = (parseCmds rest).map (fun cs => List.replicate q (Cmd.wait 65535) ++ cs) := by
  induction q with
  | zero => simp [fullWaits]
  | succ q ih =>
    have e : fullWaits (q + 1) ++ rest = 0x61 :: 0xff :: 0xff :: (fullWaits q ++ rest) := rfl
    rw [e, parseCmds_wait_cons, ih]
    cases parseCmds rest <;> simp [List.replicate_succ]

theorem parseCmds_lastWait (r : Nat) (rest : List Nat) :
    parseCmds ((if 0 < r then [0x61, r &&& 0xff, r >>> 8] else []) ++ rest)
      = (parseCmds rest).map (fun cs => (if 0 < r then [Cmd.wait r] else []) ++ cs) := by
  by_cases h : 0 < r
  · have e : r % 256 + 256 * (r / 256) = r := by omega
    simp [h, parseCmds, and_ff_eq_mod, shr8_eq_div, e]
  · simp [h]

theorem waitBytes_append (a b : List Nat) : waitBytes (a ++ b) = waitBytes a ++ waitBytes b := by
  induction a with
  | nil => rfl
  | cons w ws ih => simp [waitBytes, ih]

theorem waitBytes_replicate (q : Nat) : waitBytes (List.replicate q 65535) = fullWaits q := by
  induction q with
  | zero => rfl
  | succ q ih => simp [List.replicate_succ, waitBytes, fullWaits, ih]

/-- The bytes `do_sleep` appends for a delay `p` are the wait commands of the greedy
split of `p`. -/
theorem waitBytes_greedy (p : Nat) :
    waitBytes (greedyValues p)
      = fullWaits (p / 65535)
        ++ (if 0 < p % 65535 then [0x61, (p % 65535) &&& 0xff, (p % 65535) >>> 8] else []) := by
  unfold greedyValues
  rw [waitBytes_append, waitBytes_replicate]
  by_cases h : 0 < p % 65535
  · simp [h, waitBytes, and_ff_eq_mod, shr8_eq_div]
  · simp [h, waitBytes]

theorem greedyValues_sum (p : Nat) : (greedyValues p).sum = p := by
  unfold greedyValues
  have h := Nat.div_add_mod p 65535
  by_cases h0 : 0 < p % 65535
  · simp [h0, List.sum_replicate]
    omega
  · simp [h0, List.sum_replicate]
    omega

theorem greedyValues_bounds (p w : Nat) (hw : w ∈ greedyValues p) : 0 < w ∧ w ≤ 65535 := by
  unfold greedyValues at hw
  have hlt : p % 65535 < 65535 := Nat.mod_lt _ (by decide)
  rcases List.mem_append.1 hw with h | h
  · have := (List.mem_replicate.1 h).2
    omega
  · by_cases h0 : 0 < p % 65535
    · simp [h0] at h
      omega
    · simp [h0] at h

theorem parseCmds_waitBytes (ws : List Nat) (hws : ∀ w ∈ ws, w ≤ 65535) (rest : List Nat) :
    parseCmds (waitBytes ws ++ rest)
      = (parseCmds rest).map (fun cs => ws.map Cmd.wait ++ cs) := by
  induction ws with
  | nil => simp [waitBytes]
  | cons w ws ih =>
    have e : w % 256 + 256 * (w / 256) = w := by omega
    have ih2 := ih (fun x hx => hws x (List.mem_cons_of_mem _ hx))
    have e2 : waitBytes (w :: ws) ++ rest = 0x61 :: (w % 256) :: (w / 256) :: (waitBytes ws ++ rest) :=
      rfl
    rw [e2, parseCmds_wait_cons, ih2, e]
    cases parseCmds rest <;> simp

theorem timelineOfCmds_waits (ws : List Nat) (rest : List Cmd) (acc : Nat) :
    timelineOfCmds (ws.map Cmd.wait ++ rest) acc = timelineOfCmds rest (acc + ws.sum) := by
  induction ws generalizing acc with
  | nil => simp
  | cons w ws ih =>
    have e : timelineOfCmds ((w :: ws).map Cmd.wait ++ rest) acc
        = timelineOfCmds (ws.map Cmd.wait ++ rest) (acc + w) := rfl
    rw [e, ih, List.sum_cons, Nat.add_assoc]

/-- What `do_sleep` does, for every pending delay: nothing is left pending, the lifetime
total takes the delay, and the wait commands of the greedy split are appended. -/
theorem do_sleep_data (grow : Growth) (s : VGMOPL3) :
    (do_sleep grow s).slept_samples = 0 ∧
    (do_sleep grow s).dbuf_.data = s.dbuf_.data ++ waitBytes (greedyValues s.slept_samples) := by
  have hlt : s.slept_samples % 65535 < 65535 := Nat.mod_lt _ (by decide)
  have h := do_sleep_spec grow s (s.slept_samples / 65535) (s.slept_samples % 65535) hlt
    (Nat.div_add_mod _ _).symm
  refine ⟨h.1, ?_⟩
  rw [h.2, waitBytes_greedy, List.append_assoc]

/-! ## `writeReg` -/

theorem and_0x100 (x : Nat) : x &&& 0x100 = if x / 256 % 2 = 1 then 256 else 0 := by
  apply Nat.eq_of_testBit_eq
  intro i
  have h256 : (0x100 : Nat) = 2 ^ 8 := rfl
  rw [Nat.testBit_and, h256, Nat.testBit_two_pow]
  by_cases hi : 8 = i
  · subst hi
    by_cases hx : x / 256 % 2 = 1
    · simp [Nat.testBit_to_div_mod, hx]
    · simp [Nat.testBit_to_div_mod, hx]
  · by_cases hx : x / 256 % 2 = 1
    · simp [hi, hx]
      rw [show (256 : Nat) = 2 ^ 8 from rfl, Nat.testBit_two_pow]
      simp [hi]
    · simp [hi, hx]

theorem and_1ff_ff (x : Nat) : (x &&& 0x1ff) &&& 0xff = x &&& 0xff := by
  rw [Nat.and_assoc]
  rfl

theorem and_1ff_100 (x : Nat) : (x &&& 0x1ff) &&& 0x100 = x &&& 0x100 := by
  rw [Nat.and_assoc]
  rfl

theorem u8_and_ff (x : Nat) : u8 (x &&& 0xff) = x &&& 0xff := by
  unfold u8
  rw [and_ff_eq_mod]
  omega

theorem writeReg_data (grow : Growth) (addr data : Nat) (s : VGMOPL3) :
    (writeReg grow addr data s).dbuf_.data
      = (do_sleep grow s).dbuf_.data
        ++ [if addr &&& 0x100 ≠ 0 then 0x5f else 0x5e, addr &&& 0xff, data] := by
  simp [writeReg, u8_and_ff]

theorem writeReg_slept (grow : Growth) (addr data : Nat) (s : VGMOPL3) :
    (writeReg grow addr data s).slept_samples = 0 := by
  simp [writeReg, (do_sleep_data grow s).1]

theorem writeReg_sample_count (grow : Growth) (addr data : Nat) (s : VGMOPL3) :
    (writeReg grow addr data s).sample_count = u32 (s.sample_count + s.slept_samples) := rfl

theorem writeReg_gd3 (grow : Growth) (addr data : Nat) (s : VGMOPL3) :
    (writeReg grow addr data s).gd3_info_ = s.gd3_info_ := rfl

theorem writeReg_data_idle (grow : Growth) (addr data : Nat) (s : VGMOPL3)
    (h : s.slept_samples = 0) :
    (writeReg grow addr data s).dbuf_.data
      = s.dbuf_.data ++ [if addr &&& 0x100 ≠ 0 then 0x5f else 0x5e, addr &&& 0xff, data] := by
  rw [writeReg_data, (do_sleep_idle grow s h).1]

theorem writeReg_appended (grow : Growth) (s : VGMOPL3) (addr data : Nat) :
    (writeReg grow addr data s).dbuf_.data
      = s.dbuf_.data ++ waitBytes (greedyValues s.slept_samples)
        ++ [if addr &&& 0x100 ≠ 0 then 0x5f else 0x5e, addr &&& 0xff, data] := by
  rw [writeReg_data, (do_sleep_data grow s).2]

theorem writeReg_sample_count_idle (grow : Growth) (addr data : Nat) (s : VGMOPL3)
    (h : s.slept_samples = 0) (hc : s.sample_count = 0) :
    (writeReg grow addr data s).sample_count = 0 := by
  rw [writeReg_sample_count, h, hc]
  rfl

/-! ## The constructor -/

theorem store32_chain (d : ByteVec) :
    (ByteVec.store32 d.storage 0x5c 14318180 (ByteVec.store32 d.storage 0x34 0x0000004c
      (ByteVec.store32 d.storage 0x08 0x00000151
        (ByteVec.store32 d.storage 0x00 0x206d6756 d)))).data
      = poke32 (poke32 (poke32 (poke32 d.data 0x00 0x206d6756) 0x08 0x00000151) 0x34 0x0000004c)
          0x5c 14318180 := by
  simp [ByteVec.store32]

theorem construct_resized (grow : Growth) (dbuf : ByteVec) :
    (((dbuf.clear).insertEnd grow (ascii "Vgm ")).resize grow 128).data
      = ascii "Vgm " ++ List.replicate 124 0 := by
  have hl : (ascii "Vgm ").length = 4 := rfl
  simp [ByteVec.resize, ByteVec.clear, hl]

theorem construct_header :
    poke32 (poke32 (poke32 (poke32 (ascii "Vgm " ++ List.replicate 124 0) 0x00 0x206d6756)
      0x08 0x00000151) 0x34 0x0000004c) 0x5c 14318180 = headerBytes := by
  decide

theorem construct_data (grow : Growth) (dbuf : ByteVec) (gd3_info : GD3Info) :
    (VGMOPL3.construct grow dbuf gd3_info).dbuf_.data = headerBytes ++ bootstrapBytes := by
  unfold VGMOPL3.construct
  simp only []
  rw [writeReg_data_idle _ _ _ _ (writeReg_slept _ _ _ _),
    writeReg_data_idle _ _ _ _ (writeReg_slept _ _ _ _),
    writeReg_data_idle _ _ _ _ (writeReg_slept _ _ _ _),
    writeReg_data_idle _ _ _ _ (writeReg_slept _ _ _ _),
    writeReg_data_idle _ _ _ _ (writeReg_slept _ _ _ _),
    writeReg_data_idle _ _ _ _ (writeReg_slept _ _ _ _),
    writeReg_data_idle _ _ _ _ rfl]
  rw [store32_chain, construct_resized, construct_header]
  simp only [List.append_assoc]
  rfl

theorem construct_length (grow : Growth) (dbuf : ByteVec) (gd3_info : GD3Info) :
    (VGMOPL3.construct grow dbuf gd3_info).dbuf_.data.length = 149 := by
  rw [construct_data]
  simp [headerBytes, bootstrapBytes, le32]

theorem construct_slept (grow : Growth) (dbuf : ByteVec) (gd3_info : GD3Info) :
    (VGMOPL3.construct grow dbuf gd3_info).slept_samples = 0 := by
  unfold VGMOPL3.construct
  exact writeReg_slept _ _ _ _

theorem construct_sample_count (grow : Growth) (dbuf : ByteVec) (gd3_info : GD3Info) :
    (VGMOPL3.construct grow dbuf gd3_info).sample_count = 0 := by
  unfold VGMOPL3.construct
  simp only []
  repeat rw [writeReg_sample_count, writeReg_slept]
  rw [writeReg_sample_count]
  rfl

theorem construct_gd3 (grow : Growth) (dbuf : ByteVec) (gd3_info : GD3Info) :
    (VGMOPL3.construct grow dbuf gd3_info).gd3_info_ = gd3_info := rfl

/-! ## Delay chunking -/

/-- C2. Delay chunking: for a pending delay `p = 65535 * q + r` with `r < 65535`,
`do_sleep` ends with `slept_samples = 0` and appends exactly `q` wait commands
`61 ff ff` followed, when `r > 0`, by the one wait command `61, r & 0xff, r >> 8`; read
back, these are `q` waits of 65535 samples and then a wait of `r` samples. -/
theorem do_sleep_greedy_chunks (grow : Growth) (s : VGMOPL3) (q r : Nat) (hr : r < 65535)
    (hp : s.slept_samples = 65535 * q + r) :
    (do_sleep grow s).slept_samples = 0 ∧
    (do_sleep grow s).dbuf_.data
      = s.dbuf_.data ++ (fullWaits q ++ (if 0 < r then [0x61, r &&& 0xff, r >>> 8] else [])) ∧
    parseCmds (fullWaits q ++ (if 0 < r then [0x61, r &&& 0xff, r >>> 8] else []))
      = some (List.replicate q (Cmd.wait 65535) ++ (if 0 < r then [Cmd.wait r] else [])) := by
  have h := do_sleep_spec grow s q r hr hp
  refine ⟨h.1, ?_, ?_⟩
  · rw [h.2, List.append_assoc]
  · have h2 := parseCmds_lastWait r []
    rw [List.append_nil] at h2
    rw [parseCmds_fullWaits, h2]
    simp [parseCmds]

/-- C2 at a sleep of 70000 samples on a fresh builder: two wait commands, of 65535 and of
4465 samples. -/
theorem do_sleep_greedy_chunks_witness :
    (4465 < 65535 ∧ (sleep 70000 freshBuilder).slept_samples = 65535 * 1 + 4465) ∧
    (do_sleep libstdcxxGrowth (sleep 70000 freshBuilder)).slept_samples = 0 ∧
    (do_sleep libstdcxxGrowth (sleep 70000 freshBuilder)).dbuf_.data
      = freshBuilder.dbuf_.data ++ [0x61, 0xff, 0xff, 0x61, 0x71, 0x11] ∧
    parseCmds [0x61, 0xff, 0xff, 0x61, 0x71, 0x11] = some [Cmd.wait 65535, Cmd.wait 4465] :=
  ⟨⟨by decide, by decide⟩,
   do_sleep_greedy_chunks libstdcxxGrowth (sleep 70000 freshBuilder) 1 4465 (by decide)
     (by decide)⟩

/-! ## Register writes -/

/-- C4, as amended. For every address below `0x200` (a 9-bit logical address) and every
data byte, the last three bytes of the buffer after `writeReg addr data` are the opcode,
`addr & 0xff` and `data`, the opcode being `0x5e` if `addr < 0x100` and `0x5f`
otherwise. -/
theorem writeReg_encoding_nine_bit (grow : Growth) (s : VGMOPL3) (addr data : Nat)
    (haddr : addr < 0x200) :
    (writeReg grow addr data s).dbuf_.data
      = (do_sleep grow s).dbuf_.data
        ++ [if addr < 0x100 then 0x5e else 0x5f, addr &&& 0xff, data] ∧
    (writeReg grow addr data s).dbuf_.data.drop ((writeReg grow addr data s).dbuf_.data.length - 3)
      = [if addr < 0x100 then 0x5e else 0x5f, addr &&& 0xff, data] := by
  have hop : (if addr &&& 0x100 ≠ 0 then 0x5f else 0x5e)
      = (if addr < 0x100 then 0x5e else (0x5f : Nat)) := by
    rw [and_0x100]
    by_cases h : addr < 0x100
    · have h1 : ¬ (addr / 256 % 2 = 1) := by omega
      simp [h, h1]
    · have h1 : addr / 256 % 2 = 1 := by omega
      simp [h, h1]
  have hd := writeReg_data grow addr data s
  rw [hop] at hd
  refine ⟨hd, ?_⟩
  rw [hd]
  simp

/-- C4's amended statement at address `0x105`, data 1, on a fresh builder. -/
theorem writeReg_encoding_nine_bit_witness :
    0x105 < 0x200 ∧
    (writeReg libstdcxxGrowth 0x105 1 freshBuilder).dbuf_.data
      = (do_sleep libstdcxxGrowth freshBuilder).dbuf_.data
        ++ [if 0x105 < 0x100 then 0x5e else 0x5f, 0x105 &&& 0xff, 1] ∧
    (writeReg libstdcxxGrowth 0x105 1 freshBuilder).dbuf_.data.drop
        ((writeReg libstdcxxGrowth 0x105 1 freshBuilder).dbuf_.data.length - 3)
      = [if 0x105 < 0x100 then 0x5e else 0x5f, 0x105 &&& 0xff, 1] :=
  ⟨by decide, writeReg_encoding_nine_bit libstdcxxGrowth freshBuilder 0x105 1 (by decide)⟩

set_option maxRecDepth 100000 in
/-- C4 as stated fails at the 16-bit address `0x200`: the claim's opcode for it is `0x5f`
(the address is not below `0x100`), while `writeReg` appends `5e 00 07`. -/
theorem writeReg_encoding_counterexample :
    (writeReg libstdcxxGrowth 0x200 7 freshBuilder).dbuf_.data.drop
        ((writeReg libstdcxxGrowth 0x200 7 freshBuilder).dbuf_.data.length - 3)
      = [0x5e, 0x00, 0x07] ∧
    ¬ ((writeReg libstdcxxGrowth 0x200 7 freshBuilder).dbuf_.data.drop
        ((writeReg libstdcxxGrowth 0x200 7 freshBuilder).dbuf_.data.length - 3)
      = [if 0x200 < 0x100 then 0x5e else 0x5f, 0x200 &&& 0xff, 7]) := by
  decide

/-- C5. The port selector is bit `0x100` only: with no delay pending, `writeReg addr data`
appends exactly three bytes, `0x5f` when `addr & 0x100` is not zero and `0x5e` otherwise,
then `addr & 0xff`, then `data`; the bytes are those of `writeReg (addr & 0x1ff) data`;
`writeReg 0x105 0x1` appends `5f 05 01` and `writeReg 0x004 96` appends `5e 04 60`. -/
theorem writeReg_port_bit (grow : Growth) (s : VGMOPL3) (addr data : Nat)
    (hidle : s.slept_samples = 0) :
    (writeReg grow addr data s).dbuf_.data
      = s.dbuf_.data ++ [if addr &&& 0x100 ≠ 0 then 0x5f else 0x5e, addr &&& 0xff, data] ∧
    (writeReg grow (addr &&& 0x1ff) data s).dbuf_.data = (writeReg grow addr data s).dbuf_.data ∧
    (writeReg grow 0x105 0x1 s).dbuf_.data = s.dbuf_.data ++ [0x5f, 0x05, 0x01] ∧
    (writeReg grow 0x004 96 s).dbuf_.data = s.dbuf_.data ++ [0x5e, 0x04, 0x60] := by
  refine ⟨writeReg_data_idle grow addr data s hidle, ?_, ?_, ?_⟩
  · rw [writeReg_data_idle grow addr data s hidle,
      writeReg_data_idle grow (addr &&& 0x1ff) data s hidle, and_1ff_ff, and_1ff_100]
  · rw [writeReg_data_idle grow 0x105 0x1 s hidle]
    rfl
  · rw [writeReg_data_idle grow 0x004 96 s hidle]
    rfl

/-- C5 on a fresh builder at the 16-bit address `0xfe05`, whose bit `0x100` is clear. -/
theorem writeReg_port_bit_witness :
    freshBuilder.slept_samples = 0 ∧
    (writeReg libstdcxxGrowth 0xfe05 9 freshBuilder).dbuf_.data
      = freshBuilder.dbuf_.data
        ++ [if 0xfe05 &&& 0x100 ≠ 0 then 0x5f else 0x5e, 0xfe05 &&& 0xff, 9] ∧
    (writeReg libstdcxxGrowth (0xfe05 &&& 0x1ff) 9 freshBuilder).dbuf_.data
      = (writeReg libstdcxxGrowth 0xfe05 9 freshBuilder).dbuf_.data ∧
    (writeReg libstdcxxGrowth 0x105 0x1 freshBuilder).dbuf_.data
      = freshBuilder.dbuf_.data ++ [0x5f, 0x05, 0x01] ∧
    (writeReg libstdcxxGrowth 0x004 96 freshBuilder).dbuf_.data
      = freshBuilder.dbuf_.data ++ [0x5e, 0x04, 0x60] :=
  ⟨by decide, writeReg_port_bit libstdcxxGrowth freshBuilder 0xfe05 9 (by decide)⟩

/-- C6. Writes drain the pending delay: `writeReg addr data` appends the wait commands of
the greedy split of the pending delay, whose sample counts are between 1 and 65535 and
sum to the pending delay, then the 3-byte write command as the last bytes, and leaves
`slept_samples = 0`; a write that follows directly appends its three bytes only. -/
theorem writeReg_drains_delay (grow : Growth) (s : VGMOPL3) (addr data : Nat) :
    (writeReg grow addr data s).dbuf_.data
      = s.dbuf_.data ++ waitBytes (greedyValues s.slept_samples)
        ++ [if addr &&& 0x100 ≠ 0 then 0x5f else 0x5e, addr &&& 0xff, data] ∧
    (greedyValues s.slept_samples).sum = s.slept_samples ∧
    (∀ w ∈ greedyValues s.slept_samples, 0 < w ∧ w ≤ 65535) ∧
    parseCmds (waitBytes (greedyValues s.slept_samples)
        ++ [if addr &&& 0x100 ≠ 0 then 0x5f else 0x5e, addr &&& 0xff, data])
      = some ((greedyValues s.slept_samples).map Cmd.wait
          ++ [Cmd.write (if addr &&& 0x100 ≠ 0 then 0x5f else 0x5e) (addr &&& 0xff) data]) ∧
    (writeReg grow addr data s).slept_samples = 0 ∧
    ∀ addr2 data2 : Nat,
      (writeReg grow addr2 data2 (writeReg grow addr data s)).dbuf_.data
        = (writeReg grow addr data s).dbuf_.data
          ++ [if addr2 &&& 0x100 ≠ 0 then 0x5f else 0x5e, addr2 &&& 0xff, data2] := by
  refine ⟨?_, greedyValues_sum _, greedyValues_bounds _, ?_, writeReg_slept grow addr data s, ?_⟩
  · rw [writeReg_data, (do_sleep_data grow s).2]
  · rw [parseCmds_waitBytes _ (fun w hw => (greedyValues_bounds _ w hw).2)]
    by_cases h : addr &&& 0x100 ≠ 0
    · simp [parseCmds, h]
    · simp [parseCmds, h]
  · intro addr2 data2
    exact writeReg_data_idle grow addr2 data2 _ (writeReg_slept grow addr data s)

/-! ## Construction -/

set_option maxRecDepth 100000 in
/-- C7. Whatever the vector held before, the constructor leaves exactly 149 bytes: the
128-byte header, zero but for the little-endian fields `0x00 = 0x206d6756`,
`0x08 = 0x151`, `0x34 = 0x4c` and `0x5c = 14318180`, then the 21 bytes of the seven
bootstrap writes, which read back as seven writes and no wait; both sample counters are
zero. -/
theorem construct_result (grow : Growth) (dbuf : ByteVec) (gd3_info : GD3Info) :
    (VGMOPL3.construct grow dbuf gd3_info).dbuf_.data
      = (le32 0x206d6756 ++ List.replicate 4 0 ++ le32 0x00000151 ++ List.replicate 40 0
          ++ le32 0x0000004c ++ List.replicate 36 0 ++ le32 14318180 ++ List.replicate 32 0)
        ++ [0x5e, 0x04, 0x60, 0x5e, 0x04, 0x80, 0x5f, 0x05, 0x00, 0x5f, 0x05, 0x01,
            0x5f, 0x05, 0x00, 0x5e, 0x01, 0x20, 0x5f, 0x05, 0x01] ∧
    (VGMOPL3.construct grow dbuf gd3_info).dbuf_.data.length = 149 ∧
    (VGMOPL3.construct grow dbuf gd3_info).dbuf_.data.take 4 = [0x56, 0x67, 0x6d, 0x20] ∧
    field32 (VGMOPL3.construct grow dbuf gd3_info).dbuf_.data 0x00 = 0x206d6756 ∧
    field32 (VGMOPL3.construct grow dbuf gd3_info).dbuf_.data 0x08 = 0x00000151 ∧
    field32 (VGMOPL3.construct grow dbuf gd3_info).dbuf_.data 0x34 = 0x0000004c ∧
    field32 (VGMOPL3.construct grow dbuf gd3_info).dbuf_.data 0x5c = 14318180 ∧
    parseCmds ((VGMOPL3.construct grow dbuf gd3_info).dbuf_.data.drop 128)
      = some [Cmd.write 0x5e 0x04 96, Cmd.write 0x5e 0x04 128, Cmd.write 0x5f 0x05 0,
          Cmd.write 0x5f 0x05 1, Cmd.write 0x5f 0x05 0, Cmd.write 0x5e 0x01 32,
          Cmd.write 0x5f 0x05 1] ∧
    (VGMOPL3.construct grow dbuf gd3_info).sample_count = 0 ∧
    (VGMOPL3.construct grow dbuf gd3_info).slept_samples = 0 := by
  rw [construct_data, construct_sample_count, construct_slept]
  decide

/-! ## The event log -/

theorem parseCmds_write_cons (op a b : Nat) (rest : List Nat) (hop : op = 0x5e ∨ op = 0x5f) :
    parseCmds (op :: a :: b :: rest) = (parseCmds rest).map (fun cs => Cmd.write op a b :: cs) := by
  rcases hop with h | h <;> subst h <;> simp [parseCmds]

theorem port_opcode (addr : Nat) :
    (if addr &&& 0x100 ≠ 0 then 0x5f else 0x5e) = 0x5e ∨
    (if addr &&& 0x100 ≠ 0 then 0x5f else 0x5e) = 0x5f := by
  by_cases h : addr &&& 0x100 ≠ 0
  · right
    simp [h]
  · left
    simp [h]

theorem runsBounded_lt : ∀ (evs : List Event) (acc : Nat), runsBounded evs acc = true → acc < 2 ^ 32
  | [], acc, h => by simpa [runsBounded] using h
  | Event.sleep n :: rest, acc, h => by
    have := runsBounded_lt rest (acc + n) (by simpa [runsBounded] using h)
    omega
  | Event.writeReg _ _ :: rest, acc, h => by
    have h2 : acc < 2 ^ 32 ∧ runsBounded rest 0 = true := by simpa [runsBounded] using h
    exact h2.1

theorem run_cons (grow : Growth) (s : VGMOPL3) (e : Event) (evs : List Event) :
    run grow s (e :: evs) = run grow (applyEvent grow s e) evs := rfl

/-- The bytes an event sequence and the final `do_sleep` append to the buffer read back
as commands whose timeline is that of the events, the delay pending at the start
included. -/
theorem run_timeline (grow : Growth) :
    ∀ (evs : List Event) (s : VGMOPL3), runsBounded evs s.slept_samples = true →
      ∃ bytes cmds,
        (do_sleep grow (run grow s evs)).dbuf_.data = s.dbuf_.data ++ bytes ∧
        (∀ rest, parseCmds (bytes ++ rest) = (parseCmds rest).map (fun cs => cmds ++ cs)) ∧
        ∀ acc, timelineOfCmds cmds acc = timelineOfEvents evs (acc + s.slept_samples) := by
  intro evs
  induction evs with
  | nil =>
    intro s _
    refine ⟨waitBytes (greedyValues s.slept_samples),
      (greedyValues s.slept_samples).map Cmd.wait, (do_sleep_data grow s).2, ?_, ?_⟩
    · intro rest
      exact parseCmds_waitBytes _ (fun w hw => (greedyValues_bounds _ w hw).2) rest
    · intro acc
      have h := timelineOfCmds_waits (greedyValues s.slept_samples) [] acc
      rw [List.append_nil, greedyValues_sum] at h
      rw [h]
      rfl
  | cons e evs ih =>
    intro s hb
    cases e with
    | sleep n =>
      have hb2 : runsBounded evs (s.slept_samples + n) = true := by simpa [runsBounded] using hb
      have hlt := runsBounded_lt evs _ hb2
      have hs : (sleep n s).slept_samples = s.slept_samples + n := by
        show u32 (s.slept_samples + n) = s.slept_samples + n
        unfold u32
        omega
      obtain ⟨bytes, cmds, hd, hp, ht⟩ := ih (sleep n s) (by rw [hs]; exact hb2)
      refine ⟨bytes, cmds, hd, hp, ?_⟩
      intro acc
      rw [ht acc, hs, ← Nat.add_assoc]
      rfl
    | writeReg addr data =>
      have hb2 : s.slept_samples < 2 ^ 32 ∧ runsBounded evs 0 = true := by
        simpa [runsBounded] using hb
      have hs : (writeReg grow addr data s).slept_samples = 0 := writeReg_slept grow addr data s
      obtain ⟨bytes, cmds, hd, hp, ht⟩ := ih (writeReg grow addr data s) (by rw [hs]; exact hb2.2)
      refine ⟨waitBytes (greedyValues s.slept_samples)
          ++ ((if addr &&& 0x100 ≠ 0 then 0x5f else 0x5e) :: (addr &&& 0xff) :: data :: bytes),
        (greedyValues s.slept_samples).map Cmd.wait
          ++ (Cmd.write (if addr &&& 0x100 ≠ 0 then 0x5f else 0x5e) (addr &&& 0xff) data :: cmds),
        ?_, ?_, ?_⟩
      · rw [run_cons]
        show (do_sleep grow (run grow (writeReg grow addr data s) evs)).dbuf_.data = _
        rw [hd, (writeReg_appended grow s addr data)]
        simp
      · intro rest
        rw [List.append_assoc, parseCmds_waitBytes _ (fun w hw => (greedyValues_bounds _ w hw).2)]
        rw [List.cons_append, List.cons_append, List.cons_append,
          parseCmds_write_cons _ _ _ _ (port_opcode addr), hp rest]
        cases parseCmds rest <;> simp
      · intro acc
        rw [timelineOfCmds_waits, greedyValues_sum]
        have h0 := ht 0
        rw [hs] at h0
        simp only [timelineOfCmds, timelineOfEvents, h0]

/-- C1. Lossless event log: for every event sequence whose runs of consecutive sleeps
each sum to less than `2 ^ 32`, applied to a freshly constructed builder and followed by
`do_sleep`, the buffer from offset 128 on reads as 3-byte commands: the seven bootstrap
writes, then the submitted writes in order, each as port opcode, `addr & 0xff`, `data`;
the wait values read before each write sum to the sleeps submitted since the previous
write, and those after the last write to the sleeps submitted after it. -/
theorem lossless_event_log (grow : Growth) (dbuf : ByteVec) (gd3_info : GD3Info)
    (evs : List Event) (hruns : runsBounded evs 0 = true) :
    (parseCmds ((do_sleep grow (run grow (VGMOPL3.construct grow dbuf gd3_info) evs)).dbuf_.data.drop
        128)).map (fun cmds => timelineOfCmds cmds 0)
      = some (bootstrapWrites ++ (timelineOfEvents evs 0).1, (timelineOfEvents evs 0).2) := by
  have hs := construct_slept grow dbuf gd3_info
  obtain ⟨bytes, cmds, hd, hp, ht⟩ :=
    run_timeline grow evs (VGMOPL3.construct grow dbuf gd3_info) (by rw [hs]; exact hruns)
  have hp0 : parseCmds bytes = some cmds := by
    have h := hp []
    simpa [parseCmds] using h
  have ht0 : timelineOfCmds cmds 0 = timelineOfEvents evs 0 := by
    have h := ht 0
    rw [hs] at h
    exact h
  have hlen : headerBytes.length = 128 := by simp [headerBytes, le32]
  rw [hd, construct_data, List.append_assoc, List.drop_append_of_le_length (by omega),
    ← hlen, List.drop_length, List.nil_append]
  simp only [bootstrapBytes, List.cons_append, List.nil_append]
  rw [parseCmds_write_cons _ _ _ _ (by decide), parseCmds_write_cons _ _ _ _ (by decide),
    parseCmds_write_cons _ _ _ _ (by decide), parseCmds_write_cons _ _ _ _ (by decide),
    parseCmds_write_cons _ _ _ _ (by decide), parseCmds_write_cons _ _ _ _ (by decide),
    parseCmds_write_cons _ _ _ _ (by decide), hp0]
  simp only [Option.map_some', timelineOfCmds, ht0, bootstrapWrites,
    List.cons_append, List.nil_append]

set_option maxRecDepth 100000 in
/-- C1 on a sequence with a delay above 65535 before a write and two sleeps in a row. -/
theorem lossless_event_log_witness :
    runsBounded [Event.sleep 70000, Event.writeReg 0x105 1, Event.sleep 3, Event.sleep 4,
      Event.writeReg 0x20 5, Event.sleep 9] 0 = true ∧
    (parseCmds ((do_sleep libstdcxxGrowth (run libstdcxxGrowth
        (VGMOPL3.construct libstdcxxGrowth ByteVec.empty GD3Info.blank)
        [Event.sleep 70000, Event.writeReg 0x105 1, Event.sleep 3, Event.sleep 4,
          Event.writeReg 0x20 5, Event.sleep 9])).dbuf_.data.drop 128)).map
        (fun cmds => timelineOfCmds cmds 0)
      = some (bootstrapWrites
          ++ (timelineOfEvents [Event.sleep 70000, Event.writeReg 0x105 1, Event.sleep 3,
                Event.sleep 4, Event.writeReg 0x20 5, Event.sleep 9] 0).1,
          (timelineOfEvents [Event.sleep 70000, Event.writeReg 0x105 1, Event.sleep 3,
                Event.sleep 4, Event.writeReg 0x20 5, Event.sleep 9] 0).2) :=
  ⟨by decide, lossless_event_log libstdcxxGrowth ByteVec.empty GD3Info.blank _ (by decide)⟩

/-! ## UTF-8 to UTF-16 -/

theorem write_utf16_eq_units (c : Nat) : write_utf16_code_point c = utf16Units c := by
  unfold write_utf16_code_point utf16Units
  have h1 : c >>> 10 = c / 1024 := Nat.shiftRight_eq_div_pow c 10
  have h2 : c &&& 0x3FF = c % 1024 := Nat.and_pow_two_sub_one_eq_mod c 10
  rw [h1, h2]
  by_cases h : c < 0x10000
  · have h' : c ≤ 0xFFFF := by omega
    rw [if_pos h, if_pos h']
  · have h' : ¬ c ≤ 0xFFFF := by omega
    have e1 : 0xD7C0 + c / 1024 = 0xD800 + (c - 0x10000) / 1024 := by omega
    have e2 : c % 1024 = (c - 0x10000) % 1024 := by omega
    rw [if_neg h, if_neg h', e1, e2]

theorem isCont_low6 (x : Nat) : isCont (0x80 + x % 64) = true := by
  unfold isCont
  have : x % 64 < 64 := Nat.mod_lt _ (by decide)
  simp
  omega

/-- The decoder reads back the encoding of every code point up to `0x10FFFF`,
surrogates included. -/
theorem read_encode_code_point (c : Nat) (hc : c < 0x110000) (rest : List Nat) :
    read_utf8_code_point (utf8EncodeCp c ++ rest)
      = Utf8Read.codepoint c (utf8EncodeCp c).length := by
  unfold utf8EncodeCp
  by_cases h1 : c < 0x80
  · simp [h1, read_utf8_code_point]
  · by_cases h2 : c < 0x800
    · have a1 : ¬ (0xC0 + c / 64 < 0x80) := by omega
      have a2 : ¬ (0xC0 + c / 64 < 0xC2) := by omega
      have a3 : 0xC0 + c / 64 < 0xE0 := by omega
      simp [h1, h2, read_utf8_code_point, a1, a2, a3, isCont_low6]
      split_ifs <;> first | (exfalso; omega) | (congr 1; omega)
    · by_cases h3 : c < 0x10000
      · have a1 : ¬ (0xE0 + c / 4096 < 0x80) := by omega
        have a2 : ¬ (0xE0 + c / 4096 < 0xC2) := by omega
        have a3 : ¬ (0xE0 + c / 4096 < 0xE0) := by omega
        have a4 : 0xE0 + c / 4096 < 0xF0 := by omega
        simp [h1, h2, h3, read_utf8_code_point, a1, a2, a3, a4, isCont_low6]
        split_ifs <;> first | (exfalso; omega) | (congr 1; omega)
      · have a1 : ¬ (0xF0 + c / 262144 < 0x80) := by omega
        have a2 : ¬ (0xF0 + c / 262144 < 0xC2) := by omega
        have a3 : ¬ (0xF0 + c / 262144 < 0xE0) := by omega
        have a4 : ¬ (0xF0 + c / 262144 < 0xF0) := by omega
        have a4' : 0xF0 + c / 262144 < 0xF5 := by omega
        simp [h1, h2, h3, read_utf8_code_point, a1, a2, a3, a4, a4', isCont_low6]
        split_ifs <;> first | (exfalso; omega) | (congr 1; omega)

theorem read_encodeCp (c : Nat) (hc : IsScalar c) (rest : List Nat) :
    read_utf8_code_point (utf8EncodeCp c ++ rest)
      = Utf8Read.codepoint c (utf8EncodeCp c).length := by
  refine read_encode_code_point c ?_ rest
  unfold IsScalar at hc
  omega

theorem utf8EncodeCp_length_pos (c : Nat) : 0 < (utf8EncodeCp c).length := by
  unfold utf8EncodeCp
  split_ifs <;> simp

theorem utf16_in_loop_nil (fuel : Nat) :
    utf16_in_loop fuel [] = { units := [], count := 0, error := false } := by
  cases fuel <;> simp [utf16_in_loop]

/-- The facet's loop, given one iteration per byte, converts the UTF-8 encoding of a text
to its UTF-16 code units and consumes every byte. -/
theorem utf16_in_loop_encode :
    ∀ (text : List Nat) (fuel : Nat), (∀ c ∈ text, IsScalar c) →
      (utf8Encode text).length ≤ fuel →
      utf16_in_loop fuel (utf8Encode text)
        = { units := utf16Encode text, count := (utf8Encode text).length, error := false } := by
  intro text
  induction text with
  | nil =>
    intro fuel _ _
    rw [utf8Encode, utf16_in_loop_nil]
    rfl
  | cons c cs ih =>
    intro fuel hs hfuel
    have hc : IsScalar c := hs c (List.mem_cons_self _ _)
    have hcs : ∀ x ∈ cs, IsScalar x := fun x hx => hs x (List.mem_cons_of_mem _ hx)
    have hpos := utf8EncodeCp_length_pos c
    have hlen : (utf8Encode (c :: cs)).length
        = (utf8EncodeCp c).length + (utf8Encode cs).length := by
      simp [utf8Encode]
    cases fuel with
    | zero => omega
    | succ fuel =>
      have hne : ¬ (utf8Encode (c :: cs) = []) := by
        intro h
        rw [h] at hlen
        simp at hlen
        omega
      have hread : read_utf8_code_point (utf8Encode (c :: cs))
          = Utf8Read.codepoint c (utf8EncodeCp c).length := read_encodeCp c hc _
      have hdrop : (utf8Encode (c :: cs)).drop (utf8EncodeCp c).length = utf8Encode cs := by
        show (utf8EncodeCp c ++ utf8Encode cs).drop (utf8EncodeCp c).length = utf8Encode cs
        simp
      rw [utf16_in_loop, if_neg hne, hread]
      simp only []
      rw [hdrop, ih fuel hcs (by omega)]
      simp [Converted.emit, write_utf16_eq_units, utf16Encode, hlen]

theorem utf8_to_utf16_encode (text : List Nat) (hs : ∀ c ∈ text, IsScalar c) :
    utf8_to_utf16 (utf8Encode text) = Except.ok (utf16Encode text) := by
  unfold utf8_to_utf16 utf16_in
  rw [utf16_in_loop_encode text _ hs (Nat.le_refl _)]
  simp

theorem utf16Encode_lt (text : List Nat) (hs : ∀ c ∈ text, IsScalar c) :
    ∀ u ∈ utf16Encode text, u < 65536 := by
  induction text with
  | nil => intro u hu; simp [utf16Encode] at hu
  | cons c cs ih =>
    intro u hu
    have hc : IsScalar c := hs c (List.mem_cons_self _ _)
    unfold IsScalar at hc
    rw [utf16Encode, List.mem_append] at hu
    rcases hu with h | h
    · unfold utf16Units at h
      by_cases h1 : c < 0x10000
      · simp [h1] at h
        omega
      · simp [h1] at h
        omega
    · exact ih (fun x hx => hs x (List.mem_cons_of_mem _ hx)) u h

/-! ## `GD3Info::serialize` -/

theorem pushUnits_eq (us : List Nat) (hus : ∀ u ∈ us, u < 65536) (ret : List Nat) :
    pushUnits us ret = ret ++ unitsLE us := by
  induction us generalizing ret with
  | nil => simp [pushUnits, unitsLE]
  | cons u us ih =>
    have hu : u < 65536 := hus u (List.mem_cons_self _ _)
    have e1 : u8 (u &&& 0xff) = u % 256 := by rw [u8_and_ff, and_ff_eq_mod]
    have e2 : u8 (u >>> 8) = u / 256 := by
      unfold u8
      rw [shr8_eq_div]
      omega
    rw [pushUnits, ih (fun x hx => hus x (List.mem_cons_of_mem _ hx)), e1, e2]
    simp [unitsLE]

theorem serializeLoop_valid (texts : List (List Nat))
    (hs : ∀ t ∈ texts, ∀ c ∈ t, IsScalar c) (ret : List Nat) :
    serializeLoop (texts.map utf8Encode) ret = Except.ok (ret ++ gd3Body texts) := by
  induction texts generalizing ret with
  | nil => simp [serializeLoop, gd3Body]
  | cons t ts ih =>
    have ht : ∀ c ∈ t, IsScalar c := hs t (List.mem_cons_self _ _)
    rw [List.map_cons, serializeLoop, utf8_to_utf16_encode t ht]
    simp only []
    rw [ih (fun x hx => hs x (List.mem_cons_of_mem _ hx)), pushUnits_eq _ (utf16Encode_lt t ht)]
    simp [gd3Body, gd3Field]

theorem gd3Body_length (texts : List (List Nat)) :
    (gd3Body texts).length = 2 * unitCount texts := by
  induction texts with
  | nil => rfl
  | cons t ts ih =>
    have hu : ∀ us : List Nat, (unitsLE us).length = 2 * us.length := by
      intro us
      induction us with
      | nil => rfl
      | cons u us ihu => simp [unitsLE, ihu]; omega
    simp [gd3Body, gd3Field, unitCount, ih, hu]
    omega

/-- The block `serialize` returns for valid UTF-8 fields, the length field reduced to 32
bits. -/
theorem serialize_valid (g : GD3Info) (texts : List (List Nat))
    (hfields : g.fields = texts.map utf8Encode) (hs : ∀ t ∈ texts, ∀ c ∈ t, IsScalar c) :
    g.serialize
      = Except.ok ([0x47, 0x64, 0x33, 0x20, 0x00, 0x01, 0x00, 0x00]
          ++ le32 (u32 (gd3Body texts).length) ++ gd3Body texts) := by
  unfold GD3Info.serialize
  rw [hfields, serializeLoop_valid texts hs]
  simp only []
  have e1 : (gd3Magic ++ gd3Body texts).length - 12 = (gd3Body texts).length := by
    simp [gd3Magic]
  have e2 : (gd3Magic ++ gd3Body texts).take 8 = [0x47, 0x64, 0x33, 0x20, 0x00, 0x01, 0x00, 0x00] :=
    rfl
  have e3 : (gd3Magic ++ gd3Body texts).drop (8 + 4) = gd3Body texts := rfl
  rw [poke32, e1, e2, e3]

theorem field32_after8 (a0 a1 a2 a3 a4 a5 a6 a7 n : Nat) (body : List Nat) (hn : n < 2 ^ 32) :
    field32 ([a0, a1, a2, a3, a4, a5, a6, a7] ++ le32 n ++ body) 8 = n := by
  simp [field32, le32]
  omega

theorem utf8Encode_replicate_ascii (n : Nat) :
    utf8Encode (List.replicate n 0x41) = List.replicate n 0x41 := by
  induction n with
  | zero => rfl
  | succ n ih =>
    rw [List.replicate_succ, utf8Encode, ih]
    rfl

theorem utf16Encode_replicate_ascii (n : Nat) :
    utf16Encode (List.replicate n 0x41) = List.replicate n 0x41 := by
  induction n with
  | zero => rfl
  | succ n ih =>
    rw [List.replicate_succ, utf16Encode, ih]
    rfl

/-- The block `serialize` returns for valid UTF-8 fields whose body is below `2 ^ 32`
bytes, its length field read back, and the size of the body. -/
theorem serialize_block (g : GD3Info) (texts : List (List Nat))
    (hfields : g.fields = texts.map utf8Encode) (hs : ∀ t ∈ texts, ∀ c ∈ t, IsScalar c)
    (hsize : (gd3Body texts).length < 2 ^ 32) :
    g.serialize
      = Except.ok ([0x47, 0x64, 0x33, 0x20, 0x00, 0x01, 0x00, 0x00]
          ++ le32 (gd3Body texts).length ++ gd3Body texts) ∧
    field32 ([0x47, 0x64, 0x33, 0x20, 0x00, 0x01, 0x00, 0x00]
          ++ le32 (gd3Body texts).length ++ gd3Body texts) 8 = (gd3Body texts).length ∧
    (gd3Body texts).length = 2 * unitCount texts := by
  have hu : u32 (gd3Body texts).length = (gd3Body texts).length := by
    unfold u32
    omega
  refine ⟨?_, field32_after8 _ _ _ _ _ _ _ _ _ _ hsize, gd3Body_length texts⟩
  rw [serialize_valid g texts hfields hs, hu]

/-- C9, as amended. For every `GD3Info` whose eleven fields are the UTF-8 encodings of
texts (lists of scalar values) and whose body is shorter than `2 ^ 32` bytes,
`serialize` returns the bytes `Gd3 `, the version bytes `00 01 00 00`, a little-endian
32-bit length, then for each field in the order of `fields` the UTF-16 code units of its
text, low byte first, and the two bytes `00 00`; the length field is the number of bytes
after the 12-byte header, which is twice the sum of the code-unit counts plus one. -/
theorem serialize_layout (g : GD3Info) (texts : List (List Nat))
    (hfields : g.fields = texts.map utf8Encode) (hs : ∀ t ∈ texts, ∀ c ∈ t, IsScalar c)
    (hsize : (gd3Body texts).length < 2 ^ 32) :
    g.serialize
      = Except.ok ([0x47, 0x64, 0x33, 0x20, 0x00, 0x01, 0x00, 0x00]
          ++ le32 (gd3Body texts).length ++ gd3Body texts) ∧
    field32 ([0x47, 0x64, 0x33, 0x20, 0x00, 0x01, 0x00, 0x00]
          ++ le32 (gd3Body texts).length ++ gd3Body texts) 8 = (gd3Body texts).length ∧
    (gd3Body texts).length = 2 * unitCount texts := by
  have hu : u32 (gd3Body texts).length = (gd3Body texts).length := by
    unfold u32
    omega
  refine ⟨?_, field32_after8 _ _ _ _ _ _ _ _ _ _ hsize, gd3Body_length texts⟩
  rw [serialize_valid g texts hfields hs, hu]

set_option maxRecDepth 100000 in
/-- C9's amended statement with every field empty (a block of 34 bytes whose length
field is 22) and on `sampleInfo` (a two-byte character and a surrogate pair). -/
theorem serialize_layout_witness :
    (GD3Info.blank.serialize
      = Except.ok [0x47, 0x64, 0x33, 0x20, 0x00, 0x01, 0x00, 0x00, 22, 0, 0, 0,
          0, 0, 0, 0, 0, 0, 0, 0, 0, 0, 0, 0, 0, 0, 0, 0, 0, 0, 0, 0, 0, 0]) ∧
    (sampleInfo.fields = sampleTexts.map utf8Encode ∧
      (∀ t ∈ sampleTexts, ∀ c ∈ t, IsScalar c) ∧ (gd3Body sampleTexts).length < 2 ^ 32) ∧
    sampleInfo.serialize
      = Except.ok [0x47, 0x64, 0x33, 0x20, 0x00, 0x01, 0x00, 0x00, 28, 0, 0, 0,
          0, 0, 0xE9, 0x00, 0, 0, 0, 0, 0, 0, 0, 0, 0, 0, 0, 0, 0, 0, 0, 0, 0, 0,
          0x3D, 0xD8, 0x00, 0xDE, 0, 0] :=
  ⟨(serialize_layout GD3Info.blank (List.replicate 11 []) (by decide) (by decide)
      (by decide)).1.trans (congrArg Except.ok (by decide)),
   ⟨by decide, by decide, by decide⟩,
   (serialize_layout sampleInfo sampleTexts (by decide) (by decide)
      (by decide)).1.trans (congrArg Except.ok (by decide))⟩

/-- C9 as stated fails on a field of `2 ^ 31` letters `A`, which is valid UTF-8:
4294967318 bytes follow the 12-byte header, and the 32-bit length field holds 22. -/
theorem serialize_length_counterexample :
    (hugeTitleInfo.fields
        = (List.replicate (2 ^ 31) 0x41 :: List.replicate 10 []).map utf8Encode ∧
      ∀ t ∈ (List.replicate (2 ^ 31) 0x41 :: List.replicate 10 []), ∀ c ∈ t, IsScalar c) ∧
    ∃ out, hugeTitleInfo.serialize = Except.ok out ∧
      out.length - 12 = 4294967318 ∧ field32 out 8 = 22 ∧ field32 out 8 ≠ out.length - 12 := by
  have hfields : hugeTitleInfo.fields
      = (List.replicate (2 ^ 31) 0x41 :: List.replicate 10 []).map utf8Encode := by
    rw [List.map_cons, utf8Encode_replicate_ascii]
    rfl
  have hs : ∀ t ∈ (List.replicate (2 ^ 31) 0x41 :: List.replicate 10 []),
      ∀ c ∈ t, IsScalar c := by
    intro t ht c hc
    rcases List.mem_cons.1 ht with h | h
    · subst h
      rw [(List.mem_replicate.1 hc).2]
      decide
    · rw [(List.mem_replicate.1 h).2] at hc
      simp at hc
  have hlen : (gd3Body (List.replicate (2 ^ 31) 0x41 :: List.replicate 10 [])).length
      = 4294967318 := by
    rw [gd3Body_length, unitCount, utf16Encode_replicate_ascii, List.length_replicate]
    rfl
  have hout : ([0x47, 0x64, 0x33, 0x20, 0x00, 0x01, 0x00, 0x00]
      ++ le32 (u32 (gd3Body (List.replicate (2 ^ 31) 0x41 :: List.replicate 10 [])).length)
      ++ gd3Body (List.replicate (2 ^ 31) 0x41 :: List.replicate 10 [])).length - 12
        = 4294967318 := by
    simp only [List.length_append, hlen]
    rfl
  have hfield : field32 ([0x47, 0x64, 0x33, 0x20, 0x00, 0x01, 0x00, 0x00]
      ++ le32 (u32 (gd3Body (List.replicate (2 ^ 31) 0x41 :: List.replicate 10 [])).length)
      ++ gd3Body (List.replicate (2 ^ 31) 0x41 :: List.replicate 10 [])) 8 = 22 := by
    rw [hlen]
    have h22 : u32 4294967318 = 22 := by decide
    rw [h22]
    exact field32_after8 _ _ _ _ _ _ _ _ 22 _ (by decide)
  refine ⟨⟨hfields, hs⟩, _, serialize_valid hugeTitleInfo _ hfields hs, hout, hfield, ?_⟩
  rw [hfield, hout]
  decide

/-! ## Reading a GD3 block back -/

theorem unitsOfBytes_unitsLE (us rest : List Nat) :
    unitsOfBytes (unitsLE us ++ rest) = us ++ unitsOfBytes rest := by
  induction us with
  | nil => rfl
  | cons u us ih =>
    have e : unitsLE (u :: us) ++ rest = (u % 256) :: (u / 256) :: (unitsLE us ++ rest) := rfl
    have hu : u % 256 + 256 * (u / 256) = u := by omega
    rw [e, unitsOfBytes, ih, hu]
    rfl

theorem takeString_terminated (us rest : List Nat) (hz : 0 ∉ us) :
    takeString (us ++ 0 :: rest) = some (us, rest) := by
  induction us with
  | nil => simp [takeString]
  | cons u us ih =>
    have hu : u ≠ 0 := fun h => hz (by rw [h]; exact List.mem_cons_self _ _)
    have hus : 0 ∉ us := fun h => hz (List.mem_cons_of_mem _ h)
    rw [List.cons_append, takeString, if_neg hu, ih hus]
    rfl

theorem utf16Decode_units (c : Nat) (hc : IsScalar c) (rest : List Nat) :
    utf16Decode (utf16Units c ++ rest) = c :: utf16Decode rest := by
  unfold IsScalar at hc
  unfold utf16Units
  by_cases h : c < 0x10000
  · rw [if_pos h]
    cases rest with
    | nil => rfl
    | cons v rest =>
      have hn : ¬ (0xD800 ≤ c ∧ c < 0xDC00 ∧ 0xDC00 ≤ v ∧ v < 0xE000) := by omega
      show utf16Decode (c :: v :: rest) = c :: utf16Decode (v :: rest)
      rw [utf16Decode, if_neg hn]
  · rw [if_neg h]
    have hp : 0xD800 ≤ 0xD800 + (c - 0x10000) / 1024 ∧ 0xD800 + (c - 0x10000) / 1024 < 0xDC00 ∧
        0xDC00 ≤ 0xDC00 + (c - 0x10000) % 1024 ∧ 0xDC00 + (c - 0x10000) % 1024 < 0xE000 := by
      omega
    have hv : 0x10000 + (0xD800 + (c - 0x10000) / 1024 - 0xD800) * 1024
        + (0xDC00 + (c - 0x10000) % 1024 - 0xDC00) = c := by omega
    show utf16Decode ((0xD800 + (c - 0x10000) / 1024) :: (0xDC00 + (c - 0x10000) % 1024) :: rest)
      = c :: utf16Decode rest
    rw [utf16Decode, if_pos hp, hv]

theorem utf16Decode_encode (text : List Nat) (hs : ∀ c ∈ text, IsScalar c) :
    utf16Decode (utf16Encode text) = text := by
  induction text with
  | nil => rfl
  | cons c cs ih =>
    rw [utf16Encode, utf16Decode_units c (hs c (List.mem_cons_self _ _)),
      ih (fun x hx => hs x (List.mem_cons_of_mem _ hx))]

theorem utf16Encode_no_zero (text : List Nat) (hs : ∀ c ∈ text, IsScalar c) (hz : 0 ∉ text) :
    0 ∉ utf16Encode text := by
  induction text with
  | nil => simp [utf16Encode]
  | cons c cs ih =>
    have hc : c ≠ 0 := fun h => hz (by rw [h]; exact List.mem_cons_self _ _)
    have hcs : 0 ∉ cs := fun h => hz (List.mem_cons_of_mem _ h)
    intro hmem
    rw [utf16Encode, List.mem_append] at hmem
    rcases hmem with h | h
    · unfold utf16Units at h
      by_cases h1 : c < 0x10000
      · simp [h1] at h
        omega
      · simp [h1] at h
        omega
    · exact ih (fun x hx => hs x (List.mem_cons_of_mem _ hx)) hcs h

theorem zero_mem_utf8Encode (text : List Nat) (hz : 0 ∈ text) : 0 ∈ utf8Encode text := by
  induction text with
  | nil => simp at hz
  | cons c cs ih =>
    rw [utf8Encode, List.mem_append]
    rcases List.mem_cons.1 hz with h | h
    · left
      rw [← h]
      simp [utf8EncodeCp]
    · right
      exact ih h

/-- The units of a GD3 body split back into the UTF-16 strings of the texts. -/
theorem takeStrings_body (texts : List (List Nat)) (hs : ∀ t ∈ texts, ∀ c ∈ t, IsScalar c)
    (hz : ∀ t ∈ texts, 0 ∉ t) :
    takeStrings texts.length (unitsOfBytes (gd3Body texts))
      = some (texts.map utf16Encode, []) := by
  induction texts with
  | nil => rfl
  | cons t ts ih =>
    have ht := hs t (List.mem_cons_self _ _)
    have hzt := hz t (List.mem_cons_self _ _)
    have e : unitsOfBytes (gd3Body (t :: ts))
        = utf16Encode t ++ 0 :: unitsOfBytes (gd3Body ts) := by
      show unitsOfBytes ((unitsLE (utf16Encode t) ++ [0, 0]) ++ gd3Body ts) = _
      rw [List.append_assoc, unitsOfBytes_unitsLE]
      rfl
    rw [List.length_cons, takeStrings, e,
      takeString_terminated _ _ (utf16Encode_no_zero t ht hzt)]
    simp only []
    rw [ih (fun x hx => hs x (List.mem_cons_of_mem _ hx))
      (fun x hx => hz x (List.mem_cons_of_mem _ hx))]
    rfl

theorem consumed_eq (texts : List (List Nat)) :
    ((texts.map utf16Encode).map (fun us => us.length + 1)).sum = unitCount texts := by
  induction texts with
  | nil => rfl
  | cons t ts ih =>
    rw [List.map_cons, List.map_cons, List.sum_cons, ih]
    rfl

theorem decoded_fields (texts : List (List Nat)) (hs : ∀ t ∈ texts, ∀ c ∈ t, IsScalar c) :
    (texts.map utf16Encode).map (fun us => utf8Encode (utf16Decode us))
      = texts.map utf8Encode := by
  induction texts with
  | nil => rfl
  | cons t ts ih =>
    rw [List.map_cons, List.map_cons, List.map_cons,
      utf16Decode_encode t (hs t (List.mem_cons_self _ _)),
      ih (fun x hx => hs x (List.mem_cons_of_mem _ hx))]

/-- C10, as amended. GD3 round trip: for every `GD3Info` whose eleven fields are the
UTF-8 encodings of texts, hold no zero byte, and give a body shorter than `2 ^ 32`
bytes, `serialize` returns a block that reads back (header skipped, eleven strings each
ended by the first `00 00` unit, decoded from UTF-16LE) as the original eleven fields in
order; the strings and their terminators take exactly the number of bytes in the length
field, which is the number of bytes after the 12-byte header. -/
theorem gd3_round_trip (g : GD3Info) (texts : List (List Nat))
    (hfields : g.fields = texts.map utf8Encode) (hs : ∀ t ∈ texts, ∀ c ∈ t, IsScalar c)
    (hnul : ∀ f ∈ g.fields, 0 ∉ f) (hsize : (gd3Body texts).length < 2 ^ 32) :
    ∃ out, g.serialize = Except.ok out ∧
      parseGd3 out
        = some { fields := g.fields, consumed := out.length - 12,
                 lengthField := out.length - 12 } := by
  have hz : ∀ t ∈ texts, 0 ∉ t := by
    intro t ht h0
    exact hnul (utf8Encode t) (by rw [hfields]; exact List.mem_map_of_mem _ ht)
      (zero_mem_utf8Encode t h0)
  have hcount : texts.length = 11 := by
    have h := congrArg List.length hfields
    rw [List.length_map] at h
    exact h.symm
  have hlay := serialize_block g texts hfields hs hsize
  refine ⟨_, hlay.1, ?_⟩
  have hdrop : ([0x47, 0x64, 0x33, 0x20, 0x00, 0x01, 0x00, 0x00]
      ++ le32 (gd3Body texts).length ++ gd3Body texts).drop 12 = gd3Body texts := rfl
  have hlen : ([0x47, 0x64, 0x33, 0x20, 0x00, 0x01, 0x00, 0x00]
      ++ le32 (gd3Body texts).length ++ gd3Body texts).length - 12 = (gd3Body texts).length := by
    simp [le32]
  have htake := takeStrings_body texts hs hz
  rw [hcount] at htake
  unfold parseGd3
  rw [hdrop, htake]
  simp only []
  rw [decoded_fields texts hs, consumed_eq, hlay.2.1, hlen, ← hfields, ← gd3Body_length]

set_option maxRecDepth 100000 in
/-- C10's amended statement on `sampleInfo`. -/
theorem gd3_round_trip_witness :
    (sampleInfo.fields = sampleTexts.map utf8Encode ∧
      (∀ t ∈ sampleTexts, ∀ c ∈ t, IsScalar c) ∧ (∀ f ∈ sampleInfo.fields, 0 ∉ f) ∧
      (gd3Body sampleTexts).length < 2 ^ 32) ∧
    ∃ out, sampleInfo.serialize = Except.ok out ∧
      parseGd3 out
        = some { fields := sampleInfo.fields, consumed := out.length - 12,
                 lengthField := out.length - 12 } :=
  ⟨⟨by decide, by decide, by decide, by decide⟩,
   gd3_round_trip sampleInfo sampleTexts (by decide) (by decide) (by decide) (by decide)⟩

set_option maxRecDepth 100000 in
/-- C10 as stated fails on a field that holds the character `U+0000`, which is valid
UTF-8: the block reads back as eleven empty strings that take 22 bytes, while the
English title is not empty and the length field is 24. -/
theorem gd3_round_trip_counterexample :
    (nulTitleInfo.fields = ([0x00] :: List.replicate 10 []).map utf8Encode ∧
      ∀ t ∈ ([0x00] :: List.replicate 10 []), ∀ c ∈ t, IsScalar c) ∧
    nulTitleInfo.serialize
      = Except.ok [0x47, 0x64, 0x33, 0x20, 0x00, 0x01, 0x00, 0x00, 24, 0, 0, 0,
          0, 0, 0, 0, 0, 0, 0, 0, 0, 0, 0, 0, 0, 0, 0, 0, 0, 0, 0, 0, 0, 0, 0, 0] ∧
    parseGd3 [0x47, 0x64, 0x33, 0x20, 0x00, 0x01, 0x00, 0x00, 24, 0, 0, 0,
          0, 0, 0, 0, 0, 0, 0, 0, 0, 0, 0, 0, 0, 0, 0, 0, 0, 0, 0, 0, 0, 0, 0, 0]
      = some { fields := List.replicate 11 [], consumed := 22, lengthField := 24 } ∧
    List.replicate 11 [] ≠ nulTitleInfo.fields := by
  refine ⟨⟨by decide, by decide⟩, ?_, by decide, by decide⟩
  rfl

/-! ## `fin` -/

theorem poke32_length (b : List Nat) (off v : Nat) (h : off + 4 ≤ b.length) :
    (poke32 b off v).length = b.length := by
  simp [poke32, le32]
  omega

theorem field32_poke32 (b : List Nat) (off v : Nat) (h : off + 4 ≤ b.length) :
    field32 (poke32 b off v) off = u32 v := by
  have hl : (b.take off).length = off := by
    rw [List.length_take]
    omega
  have hv : u32 v < 2 ^ 32 := Nat.mod_lt _ (by decide)
  have g : ∀ k, (poke32 b off v).getD (off + k) 0
      = (le32 (u32 v) ++ b.drop (off + 4)).getD k 0 := by
    intro k
    rw [poke32, List.append_assoc, List.getD_append_right _ _ _ _ (by omega), hl]
    congr 1
    omega
  have g0 := g 0
  rw [Nat.add_zero] at g0
  rw [field32, g0, g 1, g 2, g 3]
  simp [le32]
  omega

set_option maxRecDepth 100000 in
/-- C8 on the builder `main` creates, finalized with empty notes. On the empty event
stream `fin` patches the GD3 offset (129) and appends the GD3 block at offset 149, 535
bytes in all; the append moves the vector, the stores to the fields `0x04` and `0x18` go
through the pointer taken before it, and the field `0x04` of the buffer stays 0 where
the claim has 531. After a single sleep of 5 samples the lifetime total is 5 and the
field `0x18` of the buffer stays 0. -/
theorem fin_eof_offset_unpatched :
    ((fin libstdcxxGrowth sampleGlobals freshBuilder).state?).map
        (fun s => (s.dbuf_.data.length, field32 s.dbuf_.data 0x14,
          (s.dbuf_.data.drop 149).take 4, field32 s.dbuf_.data 0x04))
      = some (535, 129, [0x47, 0x64, 0x33, 0x20], 0) ∧
    ((fin libstdcxxGrowth sampleGlobals
        (run libstdcxxGrowth freshBuilder [Event.sleep 5])).state?).map
        (fun s => (s.sample_count, field32 s.dbuf_.data 0x18, field32 s.dbuf_.data 0x04))
      = some (5, 0, 0) := by
  decide!

theorem sleep_data (n : Nat) (s : VGMOPL3) : (sleep n s).dbuf_ = s.dbuf_ := rfl

theorem do_sleep_length_le (grow : Growth) (s : VGMOPL3) :
    s.dbuf_.data.length ≤ (do_sleep grow s).dbuf_.data.length := by
  rw [(do_sleep_data grow s).2, List.length_append]
  omega

theorem run_length_le (grow : Growth) :
    ∀ (evs : List Event) (s : VGMOPL3),
      s.dbuf_.data.length ≤ (run grow s evs).dbuf_.data.length := by
  intro evs
  induction evs with
  | nil => intro s; exact Nat.le_refl _
  | cons e evs ih =>
    intro s
    rw [run_cons]
    refine Nat.le_trans ?_ (ih _)
    cases e with
    | sleep n => exact Nat.le_refl _
    | writeReg addr data =>
      show s.dbuf_.data.length ≤ (writeReg grow addr data s).dbuf_.data.length
      rw [writeReg_appended, List.length_append, List.length_append]
      omega

/-- The lifetime total and the pending delay together account for every sleep submitted,
modulo `2 ^ 32`. -/
theorem run_sample_total (grow : Growth) :
    ∀ (evs : List Event) (s : VGMOPL3),
      u32 ((run grow s evs).sample_count + (run grow s evs).slept_samples)
        = u32 (s.sample_count + s.slept_samples + sleepTotal evs) := by
  intro evs
  induction evs with
  | nil => intro s; rfl
  | cons e evs ih =>
    intro s
    rw [run_cons, ih]
    cases e with
    | sleep n =>
      show u32 (s.sample_count + u32 (s.slept_samples + n) + sleepTotal evs)
        = u32 (s.sample_count + s.slept_samples + (n + sleepTotal evs))
      unfold u32
      omega
    | writeReg addr data =>
      show u32 ((writeReg grow addr data s).sample_count
          + (writeReg grow addr data s).slept_samples + sleepTotal evs)
        = u32 (s.sample_count + s.slept_samples + sleepTotal evs)
      rw [writeReg_slept, writeReg_sample_count]
      unfold u32
      omega

theorem write_gd3_state (grow : Growth) (G : Globals) (s s3 : VGMOPL3)
    (h : (write_gd3 grow G s).state? = some s3) :
    s3.sample_count = s.sample_count ∧ s3.slept_samples = s.slept_samples ∧
    ∃ g buf, fillNotes G s.gd3_info_ = some g ∧ g.serialize = Except.ok buf ∧
      s3.gd3_info_ = g ∧ s3.dbuf_ = s.dbuf_.insertEnd grow buf := by
  unfold write_gd3 at h
  cases hfill : fillNotes G s.gd3_info_ with
  | none =>
    rw [hfill] at h
    simp [Outcome.state?] at h
  | some g =>
    rw [hfill] at h
    simp only [] at h
    cases hser : g.serialize with
    | error e =>
      rw [hser] at h
      simp [Outcome.state?] at h
    | ok buf =>
      rw [hser] at h
      simp only [Outcome.state?, Option.some.injEq] at h
      subst h
      exact ⟨rfl, rfl, g, buf, rfl, hser, rfl, rfl⟩

/-- How `fin` ends when it returns: `write_gd3` returned on the builder with the GD3
offset patched, and the two last stores went through the pointer taken before it. -/
theorem fin_state (grow : Growth) (G : Globals) (s s' : VGMOPL3)
    (h : (fin grow G s).state? = some s') :
    ∃ s3, (write_gd3 grow G { do_sleep grow s with
          dbuf_ := (do_sleep grow s).dbuf_.store32 (do_sleep grow s).dbuf_.storage 0x14
            ((do_sleep grow s).dbuf_.data.length - 0x14) }).state? = some s3 ∧
      s' = { s3 with
        dbuf_ := (s3.dbuf_.store32 (do_sleep grow s).dbuf_.storage 0x04
            (s3.dbuf_.data.length - 0x04)).store32 (do_sleep grow s).dbuf_.storage 0x18
              s3.sample_count } := by
  unfold fin at h
  simp only [] at h
  split at h
  · simp [Outcome.state?] at h
  · simp [Outcome.state?] at h
  · rename_i s3 hw
    refine ⟨s3, by rw [hw]; rfl, ?_⟩
    simp only [Outcome.state?, Option.some.injEq] at h
    exact h.symm

/-! ## Header fields across stores and appends -/

theorem getD_poke32_of_lt (b : List Nat) (off v i : Nat) (h : off + 4 ≤ b.length)
    (hi : i < off) : (poke32 b off v).getD i 0 = b.getD i 0 := by
  have hl : (b.take off).length = off := by
    rw [List.length_take]
    omega
  rw [poke32, List.append_assoc, List.getD_append _ _ _ _ (by omega)]
  simp only [List.getD_eq_getElem?_getD]
  rw [List.getElem?_take_of_lt hi]

theorem getD_poke32_of_ge (b : List Nat) (off v i : Nat) (h : off + 4 ≤ b.length)
    (hi : off + 4 ≤ i) : (poke32 b off v).getD i 0 = b.getD i 0 := by
  have hl : (b.take off ++ le32 (u32 v)).length = off + 4 := by
    rw [List.length_append, List.length_take]
    simp [le32]
    omega
  rw [poke32, List.getD_append_right _ _ _ _ (by omega), hl]
  simp only [List.getD_eq_getElem?_getD]
  rw [List.getElem?_drop]
  congr 2
  omega

/-- A store to one 32-bit field leaves every other 32-bit field as it was. -/
theorem field32_poke32_other (b : List Nat) (off off2 v : Nat) (h : off + 4 ≤ b.length)
    (hd : off2 + 4 ≤ off ∨ off + 4 ≤ off2) :
    field32 (poke32 b off v) off2 = field32 b off2 := by
  unfold field32
  rcases hd with hd | hd
  · rw [getD_poke32_of_lt b off v off2 h (by omega),
      getD_poke32_of_lt b off v (off2 + 1) h (by omega),
      getD_poke32_of_lt b off v (off2 + 2) h (by omega),
      getD_poke32_of_lt b off v (off2 + 3) h (by omega)]
  · rw [getD_poke32_of_ge b off v off2 h (by omega),
      getD_poke32_of_ge b off v (off2 + 1) h (by omega),
      getD_poke32_of_ge b off v (off2 + 2) h (by omega),
      getD_poke32_of_ge b off v (off2 + 3) h (by omega)]

/-- Appending to the buffer leaves every 32-bit field it already held as it was. -/
theorem field32_append (b c : List Nat) (off : Nat) (h : off + 4 ≤ b.length) :
    field32 (b ++ c) off = field32 b off := by
  unfold field32
  rw [List.getD_append _ _ _ _ (by omega), List.getD_append _ _ _ _ (by omega),
    List.getD_append _ _ _ _ (by omega), List.getD_append _ _ _ _ (by omega)]

/-- The buffer `fin` leaves when it returns, in terms of the block `write_gd3`
appended. -/
theorem fin_buffer (grow : Growth) (G : Globals) (s s' : VGMOPL3)
    (h : (fin grow G s).state? = some s') (hhdr : 0x1c ≤ s.dbuf_.data.length) :
    ∃ g buf, fillNotes G s.gd3_info_ = some g ∧ g.serialize = Except.ok buf ∧
      s'.gd3_info_ = g ∧
      s'.sample_count = u32 (s.sample_count + s.slept_samples) ∧
      s'.dbuf_.data.length = (do_sleep grow s).dbuf_.data.length + buf.length ∧
      (s'.dbuf_.storage = (do_sleep grow s).dbuf_.storage →
        s'.dbuf_.data
          = poke32 (poke32 (poke32 (do_sleep grow s).dbuf_.data 0x14
              ((do_sleep grow s).dbuf_.data.length - 0x14) ++ buf) 0x04
              ((do_sleep grow s).dbuf_.data.length + buf.length - 0x04)) 0x18
              (u32 (s.sample_count + s.slept_samples))) ∧
      (s'.dbuf_.storage ≠ (do_sleep grow s).dbuf_.storage →
        s'.dbuf_.data
          = poke32 (do_sleep grow s).dbuf_.data 0x14
              ((do_sleep grow s).dbuf_.data.length - 0x14) ++ buf) := by
  obtain ⟨s3, hw, hs'⟩ := fin_state grow G s s' h
  obtain ⟨hsc, _, g, buf, hfill, hser, hg, hbuf⟩ := write_gd3_state grow G _ s3 hw
  have hlen1 : 0x1c ≤ (do_sleep grow s).dbuf_.data.length :=
    Nat.le_trans hhdr (do_sleep_length_le grow s)
  have hd3 : s3.dbuf_.data
      = poke32 (do_sleep grow s).dbuf_.data 0x14 ((do_sleep grow s).dbuf_.data.length - 0x14)
        ++ buf := by
    rw [hbuf, insertEnd_data]
    simp only []
    rw [store32_data_same]
  have hl3 : s3.dbuf_.data.length = (do_sleep grow s).dbuf_.data.length + buf.length := by
    rw [hd3, List.length_append, poke32_length _ _ _ (by omega)]
  have hst : s'.dbuf_.storage = s3.dbuf_.storage := by
    rw [hs']
    simp
  have hsc3 : s3.sample_count = u32 (s.sample_count + s.slept_samples) := hsc
  refine ⟨g, buf, hfill, hser, by rw [hs']; exact hg, by rw [hs']; exact hsc3, ?_, ?_, ?_⟩
  · by_cases hk : s3.dbuf_.storage = (do_sleep grow s).dbuf_.storage
    · rw [hs']
      simp only []
      rw [store32_data_of_eq _ _ _ (by rw [store32_storage]; exact hk),
        store32_data_of_eq _ _ _ hk, poke32_length _ _ _ (by rw [poke32_length _ _ _ (by omega)]; omega),
        poke32_length _ _ _ (by omega), hl3]
    · rw [hs']
      simp only []
      rw [store32_of_ne _ _ _ hk, store32_of_ne _ _ _ hk, hl3]
  · intro hk
    rw [hst] at hk
    rw [hs']
    simp only []
    rw [store32_data_of_eq _ _ _ (by rw [store32_storage]; exact hk),
      store32_data_of_eq _ _ _ hk, hd3, hsc3, List.length_append,
      poke32_length _ _ _ (by omega)]
  · intro hk
    rw [hst] at hk
    rw [hs']
    simp only []
    rw [store32_of_ne _ _ _ hk, store32_of_ne _ _ _ hk, hd3]

/-- When the GD3 block is appended in place and the buffer stays below `2 ^ 32` bytes,
`fin` leaves the three header fields as intended: the GD3 offset, the end-of-file offset
and the lifetime sample total. -/
theorem fin_fields_in_place (grow : Growth) (G : Globals) (s s' : VGMOPL3)
    (h : (fin grow G s).state? = some s') (hhdr : 0x1c ≤ s.dbuf_.data.length)
    (hkept : s'.dbuf_.storage = (do_sleep grow s).dbuf_.storage)
    (hsmall : s'.dbuf_.data.length < 2 ^ 32) :
    field32 s'.dbuf_.data 0x14 = (do_sleep grow s).dbuf_.data.length - 0x14 ∧
    field32 s'.dbuf_.data 0x04 = s'.dbuf_.data.length - 0x04 ∧
    field32 s'.dbuf_.data 0x18 = s'.sample_count := by
  obtain ⟨g, buf, _, _, _, hsc, hlen, hin, _⟩ := fin_buffer grow G s s' h hhdr
  have hlen1 : 0x1c ≤ (do_sleep grow s).dbuf_.data.length :=
    Nat.le_trans hhdr (do_sleep_length_le grow s)
  have hd := hin hkept
  have hp1 : (poke32 (do_sleep grow s).dbuf_.data 0x14
      ((do_sleep grow s).dbuf_.data.length - 0x14)).length
        = (do_sleep grow s).dbuf_.data.length := poke32_length _ _ _ (by omega)
  have hp2 : (poke32 (do_sleep grow s).dbuf_.data 0x14
      ((do_sleep grow s).dbuf_.data.length - 0x14) ++ buf).length
        = (do_sleep grow s).dbuf_.data.length + buf.length := by
    rw [List.length_append, hp1]
  have hp3 : (poke32 (poke32 (do_sleep grow s).dbuf_.data 0x14
      ((do_sleep grow s).dbuf_.data.length - 0x14) ++ buf) 0x04
      ((do_sleep grow s).dbuf_.data.length + buf.length - 0x04)).length
        = (do_sleep grow s).dbuf_.data.length + buf.length := by
    rw [poke32_length _ _ _ (by omega), hp2]
  have hu : ∀ n, n < 2 ^ 32 → u32 n = n := by
    intro n hn
    unfold u32
    omega
  refine ⟨?_, ?_, ?_⟩
  · rw [hd, field32_poke32_other _ _ _ _ (by omega) (by omega),
      field32_poke32_other _ _ _ _ (by omega) (by omega),
      field32_append _ _ _ (by omega), field32_poke32 _ _ _ (by omega)]
    exact hu _ (by omega)
  · have h4 : field32 s'.dbuf_.data 0x04
        = u32 ((do_sleep grow s).dbuf_.data.length + buf.length - 0x04) := by
      rw [hd, field32_poke32_other _ _ _ _ (by omega) (by omega),
        field32_poke32 _ _ _ (by omega)]
    rw [h4, hlen]
    exact hu _ (by omega)
  · rw [hd, field32_poke32 _ _ _ (by omega), hsc]
    unfold u32
    omega

/-- When appending the GD3 block moves the vector, `fin` leaves the fields `0x04` and
`0x18` of the buffer as they were before it. -/
theorem fin_fields_relocated (grow : Growth) (G : Globals) (s s' : VGMOPL3)
    (h : (fin grow G s).state? = some s') (hhdr : 0x1c ≤ s.dbuf_.data.length)
    (hmoved : s'.dbuf_.storage ≠ (do_sleep grow s).dbuf_.storage) :
    field32 s'.dbuf_.data 0x04 = field32 s.dbuf_.data 0x04 ∧
    field32 s'.dbuf_.data 0x18 = field32 s.dbuf_.data 0x18 := by
  obtain ⟨g, buf, _, _, _, _, _, _, hout⟩ := fin_buffer grow G s s' h hhdr
  have hlen1 : 0x1c ≤ (do_sleep grow s).dbuf_.data.length :=
    Nat.le_trans hhdr (do_sleep_length_le grow s)
  have hd := hout hmoved
  have hp1 : (poke32 (do_sleep grow s).dbuf_.data 0x14
      ((do_sleep grow s).dbuf_.data.length - 0x14)).length
        = (do_sleep grow s).dbuf_.data.length := poke32_length _ _ _ (by omega)
  have hs1 := (do_sleep_data grow s).2
  refine ⟨?_, ?_⟩
  · rw [hd, field32_append _ _ _ (by omega), field32_poke32_other _ _ _ _ (by omega) (by omega),
      hs1, field32_append _ _ _ (by omega)]
  · rw [hd, field32_append _ _ _ (by omega), field32_poke32_other _ _ _ _ (by omega) (by omega),
      hs1, field32_append _ _ _ (by omega)]

/-- C3, as amended. For any sequence of sleeps and register writes on a fresh builder,
with sleep amounts summing to `S`: when `fin` returns, the lifetime total `sample_count`
equals `S mod 2 ^ 32`, however the amounts were grouped into calls and chunked into
waits; and when the vector still uses the storage `fin` took its header pointer into
(the GD3 block was appended in place), the little-endian 32-bit field at `0x18` of the
buffer holds that value. -/
theorem sample_count_field (grow : Growth) (G : Globals) (dbuf : ByteVec) (gd3_info : GD3Info)
    (evs : List Event)
    (hret : ((fin grow G (run grow (VGMOPL3.construct grow dbuf gd3_info) evs)).state?).isSome
      = true) :
    ((fin grow G (run grow (VGMOPL3.construct grow dbuf gd3_info) evs)).state?).map
        (fun s => s.sample_count) = some (sleepTotal evs % 2 ^ 32) ∧
    (((fin grow G (run grow (VGMOPL3.construct grow dbuf gd3_info) evs)).state?).map
        (fun s => s.dbuf_.storage)
      = some (do_sleep grow (run grow (VGMOPL3.construct grow dbuf gd3_info) evs)).dbuf_.storage →
      ((fin grow G (run grow (VGMOPL3.construct grow dbuf gd3_info) evs)).state?).map
        (fun s => field32 s.dbuf_.data 0x18) = some (sleepTotal evs % 2 ^ 32)) := by
  cases hfin : (fin grow G (run grow (VGMOPL3.construct grow dbuf gd3_info) evs)).state? with
  | none => rw [hfin] at hret; simp at hret
  | some s' =>
    obtain ⟨s3, hw, hs'⟩ := fin_state grow G _ s' hfin
    obtain ⟨hsc, _, _, buf, _, _, _, hbuf⟩ := write_gd3_state grow G _ s3 hw
    have htotal : s3.sample_count = sleepTotal evs % 2 ^ 32 := by
      rw [hsc]
      show u32 _ = _
      rw [run_sample_total, construct_sample_count, construct_slept]
      simp [u32]
    have hcount : s'.sample_count = sleepTotal evs % 2 ^ 32 := by
      rw [hs']
      exact htotal
    refine ⟨by simp [hcount], ?_⟩
    intro hkept
    simp only [Option.map_some', Option.some.injEq] at hkept
    have hst : s3.dbuf_.storage
        = (do_sleep grow (run grow (VGMOPL3.construct grow dbuf gd3_info) evs)).dbuf_.storage := by
      rw [← hkept, hs']
      simp
    have hlen0 : 149 ≤ (do_sleep grow (run grow (VGMOPL3.construct grow dbuf gd3_info)
        evs)).dbuf_.data.length := by
      have h1 := run_length_le grow evs (VGMOPL3.construct grow dbuf gd3_info)
      have h2 := do_sleep_length_le grow (run grow (VGMOPL3.construct grow dbuf gd3_info) evs)
      have h3 := construct_length grow dbuf gd3_info
      omega
    have hlen3 : 149 ≤ s3.dbuf_.data.length := by
      rw [hbuf, insertEnd_data, List.length_append]
      simp only []
      rw [store32_data_same, poke32_length _ _ _ (by omega)]
      omega
    have hdata : s'.dbuf_.data
        = poke32 (poke32 s3.dbuf_.data 0x04 (s3.dbuf_.data.length - 0x04)) 0x18
            s3.sample_count := by
      rw [hs']
      simp only []
      rw [store32_data_of_eq _ _ _ (by rw [store32_storage]; exact hst),
        store32_data_of_eq _ _ _ hst]
    have hfield : field32 s'.dbuf_.data 0x18 = sleepTotal evs % 2 ^ 32 := by
      rw [hdata, field32_poke32 _ _ _ (by rw [poke32_length _ _ _ (by omega)]; omega), htotal]
      simp [u32]
    simp [hfield]

set_option maxRecDepth 100000 in
/-- C3's amended statement on a sequence with a delay above 65535, a write and two
further sleeps, with one-letter notes: `fin` returns, and the GD3 block fits the
capacity the vector has, so it is appended in place. -/
theorem sample_count_field_witness :
    (((fin libstdcxxGrowth sampleGlobals (run libstdcxxGrowth
        (VGMOPL3.construct libstdcxxGrowth ByteVec.empty shortNotesInfo)
        [Event.sleep 70000, Event.writeReg 0x105 1, Event.sleep 2, Event.sleep 3])).state?).isSome
      = true ∧
    ((fin libstdcxxGrowth sampleGlobals (run libstdcxxGrowth
        (VGMOPL3.construct libstdcxxGrowth ByteVec.empty shortNotesInfo)
        [Event.sleep 70000, Event.writeReg 0x105 1, Event.sleep 2, Event.sleep 3])).state?).map
        (fun s => s.dbuf_.storage)
      = some (do_sleep libstdcxxGrowth (run libstdcxxGrowth
        (VGMOPL3.construct libstdcxxGrowth ByteVec.empty shortNotesInfo)
        [Event.sleep 70000, Event.writeReg 0x105 1, Event.sleep 2,
          Event.sleep 3])).dbuf_.storage) ∧
    ((fin libstdcxxGrowth sampleGlobals (run libstdcxxGrowth
        (VGMOPL3.construct libstdcxxGrowth ByteVec.empty shortNotesInfo)
        [Event.sleep 70000, Event.writeReg 0x105 1, Event.sleep 2, Event.sleep 3])).state?).map
        (fun s => s.sample_count) = some 70005 ∧
    ((fin libstdcxxGrowth sampleGlobals (run libstdcxxGrowth
        (VGMOPL3.construct libstdcxxGrowth ByteVec.empty shortNotesInfo)
        [Event.sleep 70000, Event.writeReg 0x105 1, Event.sleep 2, Event.sleep 3])).state?).map
        (fun s => field32 s.dbuf_.data 0x18) = some 70005 :=
  have h := sample_count_field libstdcxxGrowth sampleGlobals ByteVec.empty shortNotesInfo
    [Event.sleep 70000, Event.writeReg 0x105 1, Event.sleep 2, Event.sleep 3] (by decide!)
  ⟨⟨by decide!, by decide!⟩, h.1, h.2 (by decide!)⟩

set_option maxRecDepth 100000 in
/-- C3 as stated fails when the sleeps sum to `2 ^ 32`: after a sleep of 4294967295 and a
sleep of 1, `fin` patches the header in place (the field `0x04` holds 181, the final
length 185 less 4) and the 32-bit field at `0x18` holds 0, not 4294967296. -/
theorem sample_count_field_counterexample :
    sleepTotal [Event.sleep 4294967295, Event.sleep 1] = 4294967296 ∧
    ((fin libstdcxxGrowth sampleGlobals (run libstdcxxGrowth
        (VGMOPL3.construct libstdcxxGrowth ByteVec.empty shortNotesInfo)
        [Event.sleep 4294967295, Event.sleep 1])).state?).map
        (fun s => (field32 s.dbuf_.data 0x18, field32 s.dbuf_.data 0x04, s.dbuf_.data.length))
      = some (0, 181, 185) ∧
    ¬ (((fin libstdcxxGrowth sampleGlobals (run libstdcxxGrowth
        (VGMOPL3.construct libstdcxxGrowth ByteVec.empty shortNotesInfo)
        [Event.sleep 4294967295, Event.sleep 1])).state?).map
        (fun s => field32 s.dbuf_.data 0x18)
      = some (sleepTotal [Event.sleep 4294967295, Event.sleep 1])) := by
  decide!

/-! ## Accumulating and flushing delays -/

/-- C14, as amended. Accumulate accounting: `sleep n` adds `n` to the pending delay
`slept_samples` (modulo `2 ^ 32`, so exactly `n` when the sum stays below `2 ^ 32`),
leaves the lifetime total `sample_count` as it is and appends no byte; the `n` samples
reach `sample_count` at the next `do_sleep`, which adds the whole pending delay. -/
theorem sleep_accounting (grow : Growth) (s : VGMOPL3) (n : Nat) :
    (sleep n s).slept_samples = (s.slept_samples + n) % 2 ^ 32 ∧
    (s.slept_samples + n < 2 ^ 32 → (sleep n s).slept_samples = s.slept_samples + n) ∧
    (sleep n s).sample_count = s.sample_count ∧
    (sleep n s).dbuf_ = s.dbuf_ ∧
    (do_sleep grow (sleep n s)).sample_count
      = (s.sample_count + s.slept_samples + n) % 2 ^ 32 := by
  refine ⟨rfl, ?_, rfl, rfl, ?_⟩
  · intro h
    show u32 (s.slept_samples + n) = s.slept_samples + n
    unfold u32
    omega
  · show u32 (s.sample_count + u32 (s.slept_samples + n)) = _
    unfold u32
    omega

/-- C14 as stated fails on a fresh builder: after `sleep 5` the pending delay is 5 and
the lifetime total is still 0, not 5. -/
theorem sleep_accounting_counterexample :
    (sleep 5 freshBuilder).slept_samples = 5 ∧
    (sleep 5 freshBuilder).sample_count = 0 ∧
    ¬ ((sleep 5 freshBuilder).sample_count = freshBuilder.sample_count + 5) := by
  decide

/-- C16. Flush is idempotent and zero delay is silent: a second `do_sleep` right after a
`do_sleep` leaves the buffer, `slept_samples` and `sample_count` as the first left them;
with `slept_samples = 0`, also after `sleep 0`, `do_sleep` appends nothing; and the wait
commands `do_sleep` appends encode sample counts between 1 and 65535, never 0. -/
theorem do_sleep_idempotent (grow : Growth) (s : VGMOPL3) :
    (do_sleep grow (do_sleep grow s)).dbuf_ = (do_sleep grow s).dbuf_ ∧
    (do_sleep grow (do_sleep grow s)).slept_samples = (do_sleep grow s).slept_samples ∧
    (do_sleep grow (do_sleep grow s)).sample_count = (do_sleep grow s).sample_count ∧
    (s.slept_samples = 0 → (do_sleep grow s).dbuf_ = s.dbuf_) ∧
    (s.slept_samples = 0 → (do_sleep grow (sleep 0 s)).dbuf_ = s.dbuf_) ∧
    (do_sleep grow s).dbuf_.data = s.dbuf_.data ++ waitBytes (greedyValues s.slept_samples) ∧
    parseCmds (waitBytes (greedyValues s.slept_samples))
      = some ((greedyValues s.slept_samples).map Cmd.wait) ∧
    ∀ w ∈ greedyValues s.slept_samples, 0 < w ∧ w ≤ 65535 := by
  have h0 := (do_sleep_data grow s).1
  have hidle := do_sleep_idle grow (do_sleep grow s) h0
  refine ⟨hidle.1, ?_, ?_, ?_, ?_, (do_sleep_data grow s).2, ?_, greedyValues_bounds _⟩
  · rw [hidle.2, h0]
  · rw [do_sleep_sample_count, h0, do_sleep_sample_count]
    unfold u32
    omega
  · intro h
    exact (do_sleep_idle grow s h).1
  · intro h
    have hz : (sleep 0 s).slept_samples = 0 := by
      show u32 (s.slept_samples + 0) = 0
      rw [h]
      rfl
    exact (do_sleep_idle grow (sleep 0 s) hz).1
  · have h := parseCmds_waitBytes (greedyValues s.slept_samples)
      (fun w hw => (greedyValues_bounds _ w hw).2) []
    rw [List.append_nil] at h
    rw [h]
    simp [parseCmds]

/-! ## The ways `fin` ends -/

theorem fin_undefined (grow : Growth) (G : Globals) (s : VGMOPL3)
    (hfill : fillNotes G s.gd3_info_ = none) : fin grow G s = Outcome.undefined := by
  have hw : write_gd3 grow G { do_sleep grow s with
      dbuf_ := (do_sleep grow s).dbuf_.store32 (do_sleep grow s).dbuf_.storage 0x14
        ((do_sleep grow s).dbuf_.data.length - 0x14) } = Outcome.undefined := by
    unfold write_gd3
    show (match fillNotes G s.gd3_info_ with
      | none => Outcome.undefined
      | some g => _) = _
    rw [hfill]
  unfold fin
  simp only []
  rw [hw]

theorem fin_threw (grow : Growth) (G : Globals) (s : VGMOPL3) (g : GD3Info) (e : ConvError)
    (hfill : fillNotes G s.gd3_info_ = some g) (hser : g.serialize = Except.error e) :
    fin grow G s = Outcome.threw e { do_sleep grow s with
      dbuf_ := (do_sleep grow s).dbuf_.store32 (do_sleep grow s).dbuf_.storage 0x14
        ((do_sleep grow s).dbuf_.data.length - 0x14)
      gd3_info_ := g } := by
  have hw : write_gd3 grow G { do_sleep grow s with
      dbuf_ := (do_sleep grow s).dbuf_.store32 (do_sleep grow s).dbuf_.storage 0x14
        ((do_sleep grow s).dbuf_.data.length - 0x14) } = Outcome.threw e { do_sleep grow s with
      dbuf_ := (do_sleep grow s).dbuf_.store32 (do_sleep grow s).dbuf_.storage 0x14
        ((do_sleep grow s).dbuf_.data.length - 0x14)
      gd3_info_ := g } := by
    unfold write_gd3
    show (match fillNotes G s.gd3_info_ with
      | none => Outcome.undefined
      | some g => _) = _
    rw [hfill]
    simp only []
    rw [hser]
  unfold fin
  simp only []
  rw [hw]

theorem fin_done (grow : Growth) (G : Globals) (s : VGMOPL3) (g : GD3Info) (buf : List Nat)
    (hfill : fillNotes G s.gd3_info_ = some g) (hser : g.serialize = Except.ok buf) :
    ∃ s', fin grow G s = Outcome.done s' ∧ s'.gd3_info_ = g ∧ s'.slept_samples = 0 := by
  have hw : write_gd3 grow G { do_sleep grow s with
      dbuf_ := (do_sleep grow s).dbuf_.store32 (do_sleep grow s).dbuf_.storage 0x14
        ((do_sleep grow s).dbuf_.data.length - 0x14) } = Outcome.done { do_sleep grow s with
      dbuf_ := ((do_sleep grow s).dbuf_.store32 (do_sleep grow s).dbuf_.storage 0x14
        ((do_sleep grow s).dbuf_.data.length - 0x14)).insertEnd grow buf
      gd3_info_ := g } := by
    unfold write_gd3
    show (match fillNotes G s.gd3_info_ with
      | none => Outcome.undefined
      | some g => _) = _
    rw [hfill]
    simp only []
    rw [hser]
  unfold fin
  simp only []
  rw [hw]
  exact ⟨_, rfl, rfl, (do_sleep_data grow s).1⟩

/-- The three ways `fin` ends, by what `write_gd3` met. -/
theorem fin_cases (grow : Growth) (G : Globals) (s : VGMOPL3) :
    (fillNotes G s.gd3_info_ = none ∧ fin grow G s = Outcome.undefined) ∨
    (∃ g e, fillNotes G s.gd3_info_ = some g ∧ g.serialize = Except.error e ∧
      fin grow G s = Outcome.threw e { do_sleep grow s with
        dbuf_ := (do_sleep grow s).dbuf_.store32 (do_sleep grow s).dbuf_.storage 0x14
          ((do_sleep grow s).dbuf_.data.length - 0x14)
        gd3_info_ := g }) ∨
    (∃ g buf s', fillNotes G s.gd3_info_ = some g ∧ g.serialize = Except.ok buf ∧
      fin grow G s = Outcome.done s' ∧ s'.gd3_info_ = g ∧ s'.slept_samples = 0) := by
  cases hfill : fillNotes G s.gd3_info_ with
  | none => exact Or.inl ⟨rfl, fin_undefined grow G s hfill⟩
  | some g =>
    cases hser : g.serialize with
    | error e => exact Or.inr (Or.inl ⟨g, e, rfl, hser, fin_threw grow G s g e hfill hser⟩)
    | ok buf =>
      obtain ⟨s', h1, h2, h3⟩ := fin_done grow G s g buf hfill hser
      exact Or.inr (Or.inr ⟨g, buf, s', rfl, hser, h1, h2, h3⟩)

/-! ## The layout of a finalized buffer -/

theorem drop_poke32 (b : List Nat) (off v k : Nat) (h : off + 4 ≤ b.length)
    (hk : off + 4 ≤ k) : (poke32 b off v).drop k = b.drop k := by
  have hl : (b.take off ++ le32 (u32 v)).length = off + 4 := by
    rw [List.length_append, List.length_take]
    simp [le32]
    omega
  obtain ⟨j, rfl⟩ : ∃ j, k = (off + 4) + j := ⟨k - (off + 4), by omega⟩
  have e := @List.drop_append _ (b.take off ++ le32 (u32 v)) (b.drop (off + 4)) j
  rw [hl] at e
  rw [poke32, e, List.drop_drop]

theorem getD_poke32_outside (b : List Nat) (off v i : Nat) (h : off + 4 ≤ b.length)
    (hi : i < off ∨ off + 4 ≤ i) : (poke32 b off v).getD i 0 = b.getD i 0 := by
  rcases hi with hi | hi
  · exact getD_poke32_of_lt b off v i h hi
  · exact getD_poke32_of_ge b off v i h hi

theorem pushUnits_extends (us ret : List Nat) : ∃ t, pushUnits us ret = ret ++ t := by
  induction us generalizing ret with
  | nil => exact ⟨[], by simp [pushUnits]⟩
  | cons u us ih =>
    obtain ⟨t, ht⟩ := ih (ret ++ [u8 (u &&& 0xff), u8 (u >>> 8)])
    exact ⟨[u8 (u &&& 0xff), u8 (u >>> 8)] ++ t, by rw [pushUnits, ht, List.append_assoc]⟩

theorem serializeLoop_extends (fields : List (List Nat)) :
    ∀ (ret out : List Nat), serializeLoop fields ret = Except.ok out →
      ∃ t, out = ret ++ t := by
  induction fields with
  | nil =>
    intro ret out h
    simp only [serializeLoop, Except.ok.injEq] at h
    exact ⟨[], by rw [← h, List.append_nil]⟩
  | cons f fs ih =>
    intro ret out h
    rw [serializeLoop] at h
    cases hc : utf8_to_utf16 f with
    | error e =>
      rw [hc] at h
      simp at h
    | ok u16str =>
      rw [hc] at h
      simp only [] at h
      obtain ⟨t1, ht1⟩ := pushUnits_extends u16str ret
      obtain ⟨t2, ht2⟩ := ih _ out h
      exact ⟨t1 ++ [0, 0] ++ t2, by rw [ht2, ht1]; simp⟩

/-- Every block `serialize` returns: the bytes `Gd3 `, the version, the body length as
a 32-bit value, and the body. -/
theorem serialize_shape (g : GD3Info) (buf : List Nat) (h : g.serialize = Except.ok buf) :
    ∃ body, buf = [0x47, 0x64, 0x33, 0x20, 0x00, 0x01, 0x00, 0x00]
      ++ le32 (u32 body.length) ++ body := by
  unfold GD3Info.serialize at h
  cases hl : serializeLoop g.fields gd3Magic with
  | error e =>
    rw [hl] at h
    simp at h
  | ok ret =>
    rw [hl] at h
    simp only [Except.ok.injEq] at h
    obtain ⟨body, hb⟩ := serializeLoop_extends g.fields gd3Magic ret hl
    refine ⟨body, ?_⟩
    rw [← h, hb]
    have e1 : (gd3Magic ++ body).length - 12 = body.length := by simp [gd3Magic]
    have e2 : (gd3Magic ++ body).take 8 = [0x47, 0x64, 0x33, 0x20, 0x00, 0x01, 0x00, 0x00] := rfl
    have e3 : (gd3Magic ++ body).drop (8 + 4) = body := rfl
    rw [poke32, e1, e2, e3]

/-- The buffer `fin` leaves when it returns: the GD3 block follows the flushed command
stream, the field `0x14` holds its offset less `0x14` as a 32-bit value, and no byte of
the flushed stream outside the fields `0x04`, `0x14` and `0x18` has changed. -/
theorem fin_done_layout (grow : Growth) (G : Globals) (s s' : VGMOPL3)
    (h : (fin grow G s).state? = some s') (hhdr : 0x1c ≤ s.dbuf_.data.length) :
    ∃ g buf, fillNotes G s.gd3_info_ = some g ∧ g.serialize = Except.ok buf ∧
      s'.gd3_info_ = g ∧
      s'.dbuf_.data.length = (do_sleep grow s).dbuf_.data.length + buf.length ∧
      s'.dbuf_.data.drop (do_sleep grow s).dbuf_.data.length = buf ∧
      field32 s'.dbuf_.data 0x14 = u32 ((do_sleep grow s).dbuf_.data.length - 0x14) ∧
      ∀ i, (i < 0x04 ∨ (0x08 ≤ i ∧ i < 0x14) ∨ 0x1c ≤ i) →
        i < (do_sleep grow s).dbuf_.data.length →
        s'.dbuf_.data.getD i 0 = (do_sleep grow s).dbuf_.data.getD i 0 := by
  obtain ⟨g, buf, hfill, hser, hg, _, hlen, hin, hout⟩ := fin_buffer grow G s s' h hhdr
  have hL : 0x1c ≤ (do_sleep grow s).dbuf_.data.length :=
    Nat.le_trans hhdr (do_sleep_length_le grow s)
  have hp1 : (poke32 (do_sleep grow s).dbuf_.data 0x14
      ((do_sleep grow s).dbuf_.data.length - 0x14)).length
        = (do_sleep grow s).dbuf_.data.length := poke32_length _ _ _ (by omega)
  have hp2 : (poke32 (do_sleep grow s).dbuf_.data 0x14
      ((do_sleep grow s).dbuf_.data.length - 0x14) ++ buf).length
        = (do_sleep grow s).dbuf_.data.length + buf.length := by
    rw [List.length_append, hp1]
  have hp3 : (poke32 (poke32 (do_sleep grow s).dbuf_.data 0x14
      ((do_sleep grow s).dbuf_.data.length - 0x14) ++ buf) 0x04
      ((do_sleep grow s).dbuf_.data.length + buf.length - 0x04)).length
        = (do_sleep grow s).dbuf_.data.length + buf.length := by
    rw [poke32_length _ _ _ (by omega), hp2]
  have hdropD : (poke32 (do_sleep grow s).dbuf_.data 0x14
      ((do_sleep grow s).dbuf_.data.length - 0x14) ++ buf).drop
        (do_sleep grow s).dbuf_.data.length = buf :=
    List.drop_left' hp1
  have hgetD : ∀ i, (i < 0x04 ∨ (0x08 ≤ i ∧ i < 0x14) ∨ 0x1c ≤ i) →
      i < (do_sleep grow s).dbuf_.data.length →
      (poke32 (do_sleep grow s).dbuf_.data 0x14
        ((do_sleep grow s).dbuf_.data.length - 0x14) ++ buf).getD i 0
        = (do_sleep grow s).dbuf_.data.getD i 0 := by
    intro i hi hiL
    rw [List.getD_append _ _ _ _ (by omega), getD_poke32_outside _ _ _ _ (by omega) (by omega)]
  refine ⟨g, buf, hfill, hser, hg, hlen, ?_, ?_, ?_⟩
  · by_cases hk : s'.dbuf_.storage = (do_sleep grow s).dbuf_.storage
    · rw [hin hk, drop_poke32 _ _ _ _ (by omega) (by omega),
        drop_poke32 _ _ _ _ (by omega) (by omega), hdropD]
    · rw [hout hk, hdropD]
  · by_cases hk : s'.dbuf_.storage = (do_sleep grow s).dbuf_.storage
    · rw [hin hk, field32_poke32_other _ _ _ _ (by omega) (by omega),
        field32_poke32_other _ _ _ _ (by omega) (by omega),
        field32_append _ _ _ (by omega), field32_poke32 _ _ _ (by omega)]
    · rw [hout hk, field32_append _ _ _ (by omega), field32_poke32 _ _ _ (by omega)]
  · intro i hi hiL
    by_cases hk : s'.dbuf_.storage = (do_sleep grow s).dbuf_.storage
    · rw [hin hk, getD_poke32_outside _ _ _ _ (by omega) (by omega),
        getD_poke32_outside _ _ _ _ (by omega) (by omega), hgetD i hi hiL]
    · rw [hout hk, hgetD i hi hiL]

/-- Whether `fin` returns or throws, the buffer it leaves is at least as long as the
flushed command stream and differs from it, below its end, only inside the fields
`0x04`, `0x14` and `0x18`. -/
theorem fin_buffer_frame (grow : Growth) (G : Globals) (s : VGMOPL3) (b : List Nat)
    (h : (fin grow G s).buffer? = some b) (hhdr : 0x1c ≤ s.dbuf_.data.length) :
    (do_sleep grow s).dbuf_.data.length ≤ b.length ∧
    ∀ i, (i < 0x04 ∨ (0x08 ≤ i ∧ i < 0x14) ∨ 0x1c ≤ i) →
      i < (do_sleep grow s).dbuf_.data.length →
      b.getD i 0 = (do_sleep grow s).dbuf_.data.getD i 0 := by
  have hL : 0x1c ≤ (do_sleep grow s).dbuf_.data.length :=
    Nat.le_trans hhdr (do_sleep_length_le grow s)
  rcases fin_cases grow G s with ⟨_, hu⟩ | ⟨g, e, _, _, ht⟩ | ⟨g, buf, s', _, _, hd, _, _⟩
  · rw [hu] at h
    simp [Outcome.buffer?] at h
  · rw [ht] at h
    simp only [Outcome.buffer?, Option.some.injEq] at h
    rw [store32_data_same] at h
    subst h
    refine ⟨by rw [poke32_length _ _ _ (by omega)], ?_⟩
    intro i hi _
    exact getD_poke32_outside _ _ _ _ (by omega) (by omega)
  · have hst : (fin grow G s).state? = some s' := by rw [hd]; rfl
    rw [hd] at h
    simp only [Outcome.buffer?, Option.some.injEq] at h
    subst h
    obtain ⟨_, _, _, _, _, hlen, _, _, hget⟩ := fin_done_layout grow G s s' hst hhdr
    exact ⟨by omega, hget⟩

/-- C15. Append-only buffer and finalize frame: after `do_sleep` and after `writeReg`
the old buffer is a prefix of the new one; and on a builder whose buffer holds the
128-byte header, whether `fin` returns or throws, the buffer it leaves is no shorter and
has every byte the buffer held before at the same place, except inside the fields
`0x04-0x07`, `0x14-0x17` and `0x18-0x1b`: the magic, version, data-offset and clock
fields and every command byte from offset 128 on are as before. -/
theorem append_only_buffer (grow : Growth) (G : Globals) (s : VGMOPL3) (addr data : Nat) :
    (do_sleep grow s).dbuf_.data.take s.dbuf_.data.length = s.dbuf_.data ∧
    (writeReg grow addr data s).dbuf_.data.take s.dbuf_.data.length = s.dbuf_.data ∧
    ∀ b, (fin grow G s).buffer? = some b → 128 ≤ s.dbuf_.data.length →
      s.dbuf_.data.length ≤ b.length ∧
      (∀ i, i < s.dbuf_.data.length → (i < 0x04 ∨ (0x08 ≤ i ∧ i < 0x14) ∨ 0x1c ≤ i) →
        b.getD i 0 = s.dbuf_.data.getD i 0) ∧
      field32 b 0x00 = field32 s.dbuf_.data 0x00 ∧
      field32 b 0x08 = field32 s.dbuf_.data 0x08 ∧
      field32 b 0x34 = field32 s.dbuf_.data 0x34 ∧
      field32 b 0x5c = field32 s.dbuf_.data 0x5c ∧
      (b.take s.dbuf_.data.length).drop 128 = s.dbuf_.data.drop 128 := by
  have hds := (do_sleep_data grow s).2
  refine ⟨?_, ?_, ?_⟩
  · rw [hds, List.take_left]
  · rw [writeReg_appended, List.append_assoc, List.take_left]
  · intro b hb hhdr
    obtain ⟨hlen, hget⟩ := fin_buffer_frame grow G s b hb (by omega)
    have hle := do_sleep_length_le grow s
    have hsame : ∀ i, i < s.dbuf_.data.length →
        (i < 0x04 ∨ (0x08 ≤ i ∧ i < 0x14) ∨ 0x1c ≤ i) →
        b.getD i 0 = s.dbuf_.data.getD i 0 := by
      intro i hi ho
      rw [hget i ho (by omega), hds, List.getD_append _ _ _ _ hi]
    refine ⟨by omega, hsame, ?_, ?_, ?_, ?_, ?_⟩
    · unfold field32
      rw [hsame _ (by omega) (by omega), hsame _ (by omega) (by omega),
        hsame _ (by omega) (by omega), hsame _ (by omega) (by omega)]
    · unfold field32
      rw [hsame _ (by omega) (by omega), hsame _ (by omega) (by omega),
        hsame _ (by omega) (by omega), hsame _ (by omega) (by omega)]
    · unfold field32
      rw [hsame _ (by omega) (by omega), hsame _ (by omega) (by omega),
        hsame _ (by omega) (by omega), hsame _ (by omega) (by omega)]
    · unfold field32
      rw [hsame _ (by omega) (by omega), hsame _ (by omega) (by omega),
        hsame _ (by omega) (by omega), hsame _ (by omega) (by omega)]
    · apply List.ext_getElem?
      intro j
      rw [List.getElem?_drop, List.getElem?_drop]
      by_cases hj : 128 + j < s.dbuf_.data.length
      · rw [List.getElem?_take_of_lt hj]
        have h1 := hsame (128 + j) hj (by omega)
        simp only [List.getD_eq_getElem?_getD] at h1
        rw [List.getElem?_eq_getElem (by omega), List.getElem?_eq_getElem hj] at h1 ⊢
        simpa using h1
      · rw [List.getElem?_eq_none (by rw [List.length_take]; omega),
          List.getElem?_eq_none (by omega)]

set_option maxRecDepth 100000 in
/-- C15 on a fresh builder with a pending delay of 7 samples: `fin` returns, the buffer
has not shrunk, and the command bytes it held from offset 128 on are found again. -/
theorem append_only_buffer_witness :
    ((fin libstdcxxGrowth sampleGlobals (sleep 7 freshBuilder)).buffer?
        = some (((fin libstdcxxGrowth sampleGlobals (sleep 7 freshBuilder)).buffer?).getD []) ∧
      128 ≤ (sleep 7 freshBuilder).dbuf_.data.length) ∧
    (sleep 7 freshBuilder).dbuf_.data.length
      ≤ (((fin libstdcxxGrowth sampleGlobals (sleep 7 freshBuilder)).buffer?).getD []).length ∧
    ((((fin libstdcxxGrowth sampleGlobals (sleep 7 freshBuilder)).buffer?).getD []).take
        (sleep 7 freshBuilder).dbuf_.data.length).drop 128
      = (sleep 7 freshBuilder).dbuf_.data.drop 128 :=
  have h := (append_only_buffer libstdcxxGrowth sampleGlobals (sleep 7 freshBuilder) 0 0).2.2
    (((fin libstdcxxGrowth sampleGlobals (sleep 7 freshBuilder)).buffer?).getD [])
    (by decide!) (by decide!)
  ⟨⟨by decide!, by decide!⟩, h.1, h.2.2.2.2.2.2⟩

/-! ## Framing of the command stream -/

/-- A byte string that reads as 3-byte commands has a length that is a multiple of 3 and
one of the three opcodes at the start of every group. -/
theorem parseCmds_framing : ∀ (b : List Nat) (cmds : List Cmd), parseCmds b = some cmds →
    b.length % 3 = 0 ∧
    ∀ k, 3 * k < b.length →
      (b.getD (3 * k) 0 = 0x5e ∨ b.getD (3 * k) 0 = 0x5f ∨ b.getD (3 * k) 0 = 0x61)
  | [], _, _ => ⟨rfl, fun k hk => absurd hk (by simp)⟩
  | [_], _, h => by simp [parseCmds] at h
  | [_, _], _, h => by simp [parseCmds] at h
  | op :: a :: d :: rest, cmds, h => by
    have hop : op = 0x5e ∨ op = 0x5f ∨ op = 0x61 := by
      by_cases h1 : op = 0x61
      · exact Or.inr (Or.inr h1)
      · by_cases h2 : op = 0x5e ∨ op = 0x5f
        · rcases h2 with h2 | h2
          · exact Or.inl h2
          · exact Or.inr (Or.inl h2)
        · simp [parseCmds, h1, h2] at h
    have hrest : ∃ cs, parseCmds rest = some cs := by
      cases hr : parseCmds rest with
      | some cs => exact ⟨cs, rfl⟩
      | none =>
        rcases hop with h1 | h1 | h1
        · rw [parseCmds_write_cons _ _ _ _ (Or.inl h1), hr] at h
          simp at h
        · rw [parseCmds_write_cons _ _ _ _ (Or.inr h1), hr] at h
          simp at h
        · rw [h1, parseCmds_wait_cons, hr] at h
          simp at h
    obtain ⟨cs, hcs⟩ := hrest
    have ih := parseCmds_framing rest cs hcs
    refine ⟨by simp only [List.length_cons]; omega, ?_⟩
    intro k hk
    cases k with
    | zero => exact hop
    | succ k =>
      have e : 3 * (k + 1) = (3 * k + 2) + 1 := by omega
      rw [e, List.getD_cons_succ]
      have e2 : 3 * k + 2 = (3 * k + 1) + 1 := by omega
      rw [e2, List.getD_cons_succ, List.getD_cons_succ]
      simp only [List.length_cons] at hk
      exact ih.2 k (by omega)

theorem applyOp_extends (grow : Growth) (s : VGMOPL3) (o : Op) :
    ∃ bytes cmds, (applyOp grow s o).dbuf_.data = s.dbuf_.data ++ bytes ∧
      ∀ rest, parseCmds (bytes ++ rest) = (parseCmds rest).map (fun cs => cmds ++ cs) := by
  cases o with
  | sleep n =>
    refine ⟨[], [], by simp [applyOp, sleep], ?_⟩
    intro rest
    rw [List.nil_append]
    cases parseCmds rest <;> rfl
  | do_sleep =>
    refine ⟨waitBytes (greedyValues s.slept_samples),
      (greedyValues s.slept_samples).map Cmd.wait, (do_sleep_data grow s).2, ?_⟩
    intro rest
    exact parseCmds_waitBytes _ (fun w hw => (greedyValues_bounds _ w hw).2) rest
  | writeReg addr data =>
    refine ⟨waitBytes (greedyValues s.slept_samples)
        ++ ((if addr &&& 0x100 ≠ 0 then 0x5f else 0x5e) :: (addr &&& 0xff) :: data :: []),
      (greedyValues s.slept_samples).map Cmd.wait
        ++ [Cmd.write (if addr &&& 0x100 ≠ 0 then 0x5f else 0x5e) (addr &&& 0xff) data],
      ?_, ?_⟩
    · show (writeReg grow addr data s).dbuf_.data = _
      rw [writeReg_appended, List.append_assoc]
    · intro rest
      rw [List.append_assoc, parseCmds_waitBytes _ (fun w hw => (greedyValues_bounds _ w hw).2)]
      rw [List.cons_append, List.cons_append, List.cons_append, List.nil_append,
        parseCmds_write_cons _ _ _ _ (port_opcode addr)]
      cases parseCmds rest <;> simp

theorem runOps_cons (grow : Growth) (s : VGMOPL3) (o : Op) (ops : List Op) :
    runOps grow s (o :: ops) = runOps grow (applyOp grow s o) ops := rfl

/-- Operations only append to the buffer, and what they append reads as commands. -/
theorem runOps_extends (grow : Growth) :
    ∀ (ops : List Op) (s : VGMOPL3),
      ∃ bytes cmds, (runOps grow s ops).dbuf_.data = s.dbuf_.data ++ bytes ∧
        ∀ rest, parseCmds (bytes ++ rest) = (parseCmds rest).map (fun cs => cmds ++ cs) := by
  intro ops
  induction ops with
  | nil =>
    intro s
    refine ⟨[], [], by simp [runOps], ?_⟩
    intro rest
    rw [List.nil_append]
    cases parseCmds rest <;> rfl
  | cons o ops ih =>
    intro s
    obtain ⟨b1, c1, hd1, hp1⟩ := applyOp_extends grow s o
    obtain ⟨b2, c2, hd2, hp2⟩ := ih (applyOp grow s o)
    refine ⟨b1 ++ b2, c1 ++ c2, by rw [runOps_cons, hd2, hd1, List.append_assoc], ?_⟩
    intro rest
    rw [List.append_assoc, hp1, hp2]
    cases parseCmds rest <;> simp

theorem bootstrap_parse (rest : List Nat) :
    parseCmds (bootstrapBytes ++ rest)
      = (parseCmds rest).map (fun cs =>
          [Cmd.write 0x5e 0x04 96, Cmd.write 0x5e 0x04 128, Cmd.write 0x5f 0x05 0,
            Cmd.write 0x5f 0x05 1, Cmd.write 0x5f 0x05 0, Cmd.write 0x5e 0x01 32,
            Cmd.write 0x5f 0x05 1] ++ cs) := by
  simp only [bootstrapBytes, List.cons_append, List.nil_append]
  rw [parseCmds_write_cons _ _ _ _ (by decide), parseCmds_write_cons _ _ _ _ (by decide),
    parseCmds_write_cons _ _ _ _ (by decide), parseCmds_write_cons _ _ _ _ (by decide),
    parseCmds_write_cons _ _ _ _ (by decide), parseCmds_write_cons _ _ _ _ (by decide),
    parseCmds_write_cons _ _ _ _ (by decide)]
  cases parseCmds rest <;> simp

theorem headerBytes_length : headerBytes.length = 128 := by simp [headerBytes, le32]

/-- After construction and any operations: the header, then bytes that read as
commands. -/
theorem runOps_construct (grow : Growth) (dbuf : ByteVec) (gd3_info : GD3Info)
    (ops : List Op) :
    ∃ body cmds,
      (runOps grow (VGMOPL3.construct grow dbuf gd3_info) ops).dbuf_.data
        = headerBytes ++ body ∧
      parseCmds body = some cmds ∧ 21 ≤ body.length ∧
      body.take 21 = bootstrapBytes := by
  obtain ⟨bytes, cmds, hd, hp⟩ := runOps_extends grow ops (VGMOPL3.construct grow dbuf gd3_info)
  refine ⟨bootstrapBytes ++ bytes,
    [Cmd.write 0x5e 0x04 96, Cmd.write 0x5e 0x04 128, Cmd.write 0x5f 0x05 0,
      Cmd.write 0x5f 0x05 1, Cmd.write 0x5f 0x05 0, Cmd.write 0x5e 0x01 32,
      Cmd.write 0x5f 0x05 1] ++ cmds,
    by rw [hd, construct_data, List.append_assoc], ?_, ?_, ?_⟩
  · rw [bootstrap_parse]
    have h := hp []
    rw [List.append_nil] at h
    rw [h]
    simp [parseCmds]
  · rw [List.length_append]
    simp [bootstrapBytes]
  · have hl : bootstrapBytes.length = 21 := rfl
    rw [← hl, List.take_left]

theorem runOps_snoc (grow : Growth) (s : VGMOPL3) (ops : List Op) (o : Op) :
    runOps grow s (ops ++ [o]) = applyOp grow (runOps grow s ops) o := by
  simp [runOps, List.foldl_append]

theorem getD_drop_add (b : List Nat) (k i : Nat) : (b.drop k).getD i 0 = b.getD (k + i) 0 := by
  simp only [List.getD_eq_getElem?_getD]
  rw [List.getElem?_drop]

theorem field32_drop (b : List Nat) (k off : Nat) :
    field32 (b.drop k) off = field32 b (k + off) := by
  unfold field32
  rw [getD_drop_add, getD_drop_add, getD_drop_add, getD_drop_add]
  simp only [Nat.add_assoc]

theorem take_drop_frame (b d : List Nat)
    (hget : ∀ i, 0x1c ≤ i → i < d.length → b.getD i 0 = d.getD i 0)
    (hlen : d.length ≤ b.length) : (b.take d.length).drop 128 = d.drop 128 := by
  apply List.ext_getElem?
  intro j
  rw [List.getElem?_drop, List.getElem?_drop]
  by_cases hj : 128 + j < d.length
  · rw [List.getElem?_take_of_lt hj]
    have h1 := hget (128 + j) (by omega) hj
    simp only [List.getD_eq_getElem?_getD] at h1
    rw [List.getElem?_eq_getElem (by omega), List.getElem?_eq_getElem hj] at h1 ⊢
    simpa using h1
  · rw [List.getElem?_eq_none (by rw [List.length_take]; omega),
      List.getElem?_eq_none (by omega)]

/-- When `fin` returns, the bytes `Gd3 ` stand where the flushed command stream ended,
and the command bytes before them are those of the flushed stream. -/
theorem fin_gd3_start (grow : Growth) (G : Globals) (s s' : VGMOPL3)
    (h : (fin grow G s).state? = some s') (hhdr : 0x1c ≤ s.dbuf_.data.length) :
    (s'.dbuf_.data.drop (do_sleep grow s).dbuf_.data.length).take 4
      = [0x47, 0x64, 0x33, 0x20] ∧
    (s'.dbuf_.data.take (do_sleep grow s).dbuf_.data.length).drop 128
      = (do_sleep grow s).dbuf_.data.drop 128 := by
  obtain ⟨g, buf, _, hser, _, hlen, hdrop, _, hget⟩ := fin_done_layout grow G s s' h hhdr
  obtain ⟨body, hbody⟩ := serialize_shape g buf hser
  refine ⟨?_, ?_⟩
  · rw [hdrop, hbody]
    rfl
  · exact take_drop_frame _ _ (fun i hi hiL => hget i (Or.inr (Or.inr hi)) hiL) (by omega)

/-- C17. Command-stream framing: after construction and any sequence of `sleep`,
`writeReg` and `do_sleep`, the buffer is at least 149 bytes long, its length less 128
is a multiple of 3, every group of three bytes from offset 128 on starts with `0x5e`,
`0x5f` or `0x61` (the bytes read as commands); and when `fin` returns, the GD3 block it
appended starts at an offset `128 + 3 * k`, after the 7 bootstrap commands or later. -/
theorem command_stream_framing (grow : Growth) (dbuf : ByteVec) (gd3_info : GD3Info)
    (ops : List Op) :
    149 ≤ (runOps grow (VGMOPL3.construct grow dbuf gd3_info) ops).dbuf_.data.length ∧
    ((runOps grow (VGMOPL3.construct grow dbuf gd3_info) ops).dbuf_.data.length - 128) % 3 = 0 ∧
    (∀ k, 128 + 3 * k
        < (runOps grow (VGMOPL3.construct grow dbuf gd3_info) ops).dbuf_.data.length →
      ((runOps grow (VGMOPL3.construct grow dbuf gd3_info) ops).dbuf_.data.getD (128 + 3 * k) 0
          = 0x5e ∨
        (runOps grow (VGMOPL3.construct grow dbuf gd3_info) ops).dbuf_.data.getD (128 + 3 * k) 0
          = 0x5f ∨
        (runOps grow (VGMOPL3.construct grow dbuf gd3_info) ops).dbuf_.data.getD (128 + 3 * k) 0
          = 0x61)) ∧
    (parseCmds ((runOps grow (VGMOPL3.construct grow dbuf gd3_info) ops).dbuf_.data.drop
      128)).isSome = true ∧
    ∀ G s', (fin grow G (runOps grow (VGMOPL3.construct grow dbuf gd3_info) ops)).state?
        = some s' →
      ∃ k, 7 ≤ k ∧
        (do_sleep grow (runOps grow (VGMOPL3.construct grow dbuf gd3_info)
          ops)).dbuf_.data.length = 128 + 3 * k ∧
        (s'.dbuf_.data.drop (128 + 3 * k)).take 4 = [0x47, 0x64, 0x33, 0x20] ∧
        (parseCmds ((s'.dbuf_.data.take (128 + 3 * k)).drop 128)).isSome = true := by
  have key : ∀ ops' : List Op,
      149 ≤ (runOps grow (VGMOPL3.construct grow dbuf gd3_info) ops').dbuf_.data.length ∧
      ((runOps grow (VGMOPL3.construct grow dbuf gd3_info) ops').dbuf_.data.length - 128)
        % 3 = 0 ∧
      (∀ k, 128 + 3 * k
          < (runOps grow (VGMOPL3.construct grow dbuf gd3_info) ops').dbuf_.data.length →
        ((runOps grow (VGMOPL3.construct grow dbuf gd3_info) ops').dbuf_.data.getD
            (128 + 3 * k) 0 = 0x5e ∨
          (runOps grow (VGMOPL3.construct grow dbuf gd3_info) ops').dbuf_.data.getD
            (128 + 3 * k) 0 = 0x5f ∨
          (runOps grow (VGMOPL3.construct grow dbuf gd3_info) ops').dbuf_.data.getD
            (128 + 3 * k) 0 = 0x61)) ∧
      (parseCmds ((runOps grow (VGMOPL3.construct grow dbuf gd3_info) ops').dbuf_.data.drop
        128)).isSome = true := by
    intro ops'
    obtain ⟨body, cmds, hd, hp, hlen, _⟩ := runOps_construct grow dbuf gd3_info ops'
    have hf := parseCmds_framing body cmds hp
    have hl : (headerBytes ++ body).length = 128 + body.length := by
      rw [List.length_append, headerBytes_length]
    rw [hd, hl]
    refine ⟨by omega, by rw [Nat.add_sub_cancel_left]; exact hf.1, ?_, ?_⟩
    · intro k hk
      rw [List.getD_append_right _ _ _ _ (by rw [headerBytes_length]; omega),
        headerBytes_length, Nat.add_sub_cancel_left]
      exact hf.2 k (by omega)
    · rw [List.drop_left' headerBytes_length, hp]
      rfl
  refine ⟨(key ops).1, (key ops).2.1, (key ops).2.2.1, (key ops).2.2.2, ?_⟩
  intro G s' hfin
  have hk := key (ops ++ [Op.do_sleep])
  rw [runOps_snoc] at hk
  have hk' : 149 ≤ (do_sleep grow (runOps grow (VGMOPL3.construct grow dbuf gd3_info)
      ops)).dbuf_.data.length ∧
      ((do_sleep grow (runOps grow (VGMOPL3.construct grow dbuf gd3_info)
        ops)).dbuf_.data.length - 128) % 3 = 0 ∧
      (parseCmds ((do_sleep grow (runOps grow (VGMOPL3.construct grow dbuf gd3_info)
        ops)).dbuf_.data.drop 128)).isSome = true := ⟨hk.1, hk.2.1, hk.2.2.2⟩
  have hstart := fin_gd3_start grow G _ s' hfin (by have := (key ops).1; omega)
  have e : 128 + 3 * (((do_sleep grow (runOps grow (VGMOPL3.construct grow dbuf gd3_info)
      ops)).dbuf_.data.length - 128) / 3)
      = (do_sleep grow (runOps grow (VGMOPL3.construct grow dbuf gd3_info)
        ops)).dbuf_.data.length := by
    have h1 := hk'.1
    have h2 := hk'.2.1
    omega
  refine ⟨((do_sleep grow (runOps grow (VGMOPL3.construct grow dbuf gd3_info)
      ops)).dbuf_.data.length - 128) / 3, ?_, e.symm, ?_, ?_⟩
  · have h1 := hk'.1
    have h2 := hk'.2.1
    omega
  · rw [e]
    exact hstart.1
  · rw [e, hstart.2]
    exact hk'.2.2

/-! ## Header offsets -/

theorem header_field_0x34 : field32 (headerBytes ++ bootstrapBytes) 0x34 = 0x4c := by decide

theorem header_first_command : (headerBytes ++ bootstrapBytes).getD 128 0 = 0x5e := by decide

/-- The bytes below offset 149 of a finalized buffer, outside the three patched fields,
are those the constructor wrote. -/
theorem fin_keeps_construct (grow : Growth) (G : Globals) (dbuf : ByteVec)
    (gd3_info : GD3Info) (ops : List Op) (s' : VGMOPL3)
    (h : (fin grow G (runOps grow (VGMOPL3.construct grow dbuf gd3_info) ops)).state?
      = some s') :
    149 ≤ (runOps grow (VGMOPL3.construct grow dbuf gd3_info) ops).dbuf_.data.length ∧
    ∀ i, 0x1c ≤ i → i < 149 →
      s'.dbuf_.data.getD i 0 = (headerBytes ++ bootstrapBytes).getD i 0 := by
  obtain ⟨bytes, cmds, hd, _⟩ := runOps_extends grow ops (VGMOPL3.construct grow dbuf gd3_info)
  have hc := construct_data grow dbuf gd3_info
  have hcl := construct_length grow dbuf gd3_info
  generalize VGMOPL3.construct grow dbuf gd3_info = c at h hd hc hcl
  generalize runOps grow c ops = s at h hd
  have hsl : 149 ≤ s.dbuf_.data.length := by
    rw [hd, List.length_append]
    omega
  have hds := (do_sleep_data grow s).2
  have hL : s.dbuf_.data.length ≤ (do_sleep grow s).dbuf_.data.length :=
    do_sleep_length_le grow s
  obtain ⟨_, _, _, _, _, _, _, _, hget⟩ := fin_done_layout grow G s s' h (by omega)
  refine ⟨hsl, ?_⟩
  intro i hi hi2
  rw [hget i (Or.inr (Or.inr hi)) (by omega), hds, List.getD_append _ _ _ _ (by omega), hd,
    List.getD_append _ _ _ _ (by omega), hc]

/-- C18, as amended. Header offsets are self-consistent: in every buffer shorter than
`2 ^ 32` bytes that `fin` leaves on a constructed builder after any operations, `0x34`
plus the field at `0x34` is 128, where the first bootstrap command byte `0x5e` stands;
`0x14` plus the field at `0x14` is at least 149, lies inside the buffer and is where the
bytes `Gd3 ` begin; and that position plus 12 plus the GD3 block's own length field is
the length of the buffer. -/
theorem header_offsets (grow : Growth) (G : Globals) (dbuf : ByteVec) (gd3_info : GD3Info)
    (ops : List Op) (s' : VGMOPL3)
    (hfin : (fin grow G (runOps grow (VGMOPL3.construct grow dbuf gd3_info) ops)).state?
      = some s')
    (hsize : s'.dbuf_.data.length < 2 ^ 32) :
    0x34 + field32 s'.dbuf_.data 0x34 = 128 ∧
    s'.dbuf_.data.getD 128 0 = 0x5e ∧
    149 ≤ 0x14 + field32 s'.dbuf_.data 0x14 ∧
    0x14 + field32 s'.dbuf_.data 0x14 + 12 ≤ s'.dbuf_.data.length ∧
    (s'.dbuf_.data.drop (0x14 + field32 s'.dbuf_.data 0x14)).take 4
      = [0x47, 0x64, 0x33, 0x20] ∧
    0x14 + field32 s'.dbuf_.data 0x14 + 12
        + field32 s'.dbuf_.data (0x14 + field32 s'.dbuf_.data 0x14 + 8)
      = s'.dbuf_.data.length := by
  obtain ⟨hL, hkeep⟩ := fin_keeps_construct grow G dbuf gd3_info ops s' hfin
  generalize runOps grow (VGMOPL3.construct grow dbuf gd3_info) ops = s at hfin hL
  have h34 : field32 s'.dbuf_.data 0x34 = 0x4c := by
    rw [← header_field_0x34]
    unfold field32
    rw [hkeep _ (by omega) (by omega), hkeep _ (by omega) (by omega),
      hkeep _ (by omega) (by omega), hkeep _ (by omega) (by omega)]
  have h128 : s'.dbuf_.data.getD 128 0 = 0x5e := by
    rw [hkeep _ (by omega) (by omega), header_first_command]
  have hhdr : 0x1c ≤ s.dbuf_.data.length := by omega
  have hLs := do_sleep_length_le grow s
  obtain ⟨g, buf, _, hser, _, hlen, hdrop, h14, _⟩ := fin_done_layout grow G s s' hfin hhdr
  obtain ⟨body, hbody⟩ := serialize_shape g buf hser
  have hbl : buf.length = 12 + body.length := by
    rw [hbody]
    simp [le32]
    omega
  have hu : u32 ((do_sleep grow s).dbuf_.data.length - 0x14)
      = (do_sleep grow s).dbuf_.data.length - 0x14 := by
    unfold u32
    omega
  have hub : u32 body.length = body.length := by
    unfold u32
    omega
  have hpos : 0x14 + field32 s'.dbuf_.data 0x14 = (do_sleep grow s).dbuf_.data.length := by
    rw [h14, hu]
    omega
  have hlenf : field32 s'.dbuf_.data ((do_sleep grow s).dbuf_.data.length + 8)
      = body.length := by
    rw [← field32_drop, hdrop, hbody, hub]
    exact field32_after8 _ _ _ _ _ _ _ _ _ _ (by omega)
  refine ⟨by rw [h34], h128, by omega, by omega, ?_, ?_⟩
  · rw [hpos, hdrop, hbody]
    rfl
  · rw [hpos, hlenf]
    omega

set_option maxRecDepth 100000 in
/-- C18's amended statement on the buffer `fin` leaves after `sampleOps`. -/
theorem header_offsets_witness :
    ((fin libstdcxxGrowth sampleGlobals (runOps libstdcxxGrowth
        (VGMOPL3.construct libstdcxxGrowth ByteVec.empty GD3Info.blank) sampleOps)).state?
        = some sampleFinal ∧
      sampleFinal.dbuf_.data.length < 2 ^ 32) ∧
    0x34 + field32 sampleFinal.dbuf_.data 0x34 = 128 ∧
    sampleFinal.dbuf_.data.getD 128 0 = 0x5e ∧
    149 ≤ 0x14 + field32 sampleFinal.dbuf_.data 0x14 ∧
    0x14 + field32 sampleFinal.dbuf_.data 0x14 + 12 ≤ sampleFinal.dbuf_.data.length ∧
    (sampleFinal.dbuf_.data.drop (0x14 + field32 sampleFinal.dbuf_.data 0x14)).take 4
      = [0x47, 0x64, 0x33, 0x20] ∧
    0x14 + field32 sampleFinal.dbuf_.data 0x14 + 12
        + field32 sampleFinal.dbuf_.data (0x14 + field32 sampleFinal.dbuf_.data 0x14 + 8)
      = sampleFinal.dbuf_.data.length :=
  ⟨⟨by decide!, by decide!⟩,
   header_offsets libstdcxxGrowth sampleGlobals ByteVec.empty GD3Info.blank sampleOps
     sampleFinal (by decide!) (by decide!)⟩

/-- C18 as stated fails on a buffer of `2 ^ 32` bytes or more: with a title of `2 ^ 31`
letters the finalized buffer has 4294967481 bytes, the GD3 field names offset 149, the
GD3 block's length field holds 24, and 149 + 12 + 24 is 185. -/
theorem header_offsets_counterexample :
    ∃ s', (fin libstdcxxGrowth sampleGlobals (runOps libstdcxxGrowth
        (VGMOPL3.construct libstdcxxGrowth ByteVec.empty hugeTitleNotesInfo) [])).state?
        = some s' ∧
      s'.dbuf_.data.length = 4294967481 ∧
      0x14 + field32 s'.dbuf_.data 0x14 = 149 ∧
      0x14 + field32 s'.dbuf_.data 0x14 + 12
          + field32 s'.dbuf_.data (0x14 + field32 s'.dbuf_.data 0x14 + 8) = 185 := by
  have hfields : hugeTitleNotesInfo.fields
      = (List.replicate (2 ^ 31) 0x41 :: (List.replicate 9 [] ++ [[0x41]])).map utf8Encode := by
    rw [List.map_cons, utf8Encode_replicate_ascii]
    rfl
  have hs : ∀ t ∈ (List.replicate (2 ^ 31) 0x41 :: (List.replicate 9 [] ++ [[0x41]])),
      ∀ c ∈ t, IsScalar c := by
    intro t ht c hc
    rcases List.mem_cons.1 ht with h | h
    · subst h
      rw [(List.mem_replicate.1 hc).2]
      decide
    · rcases List.mem_append.1 h with h | h
      · rw [(List.mem_replicate.1 h).2] at hc
        simp at hc
      · rw [List.mem_singleton.1 h] at hc
        rw [List.mem_singleton.1 hc]
        decide
  have hbody : (gd3Body (List.replicate (2 ^ 31) 0x41
      :: (List.replicate 9 [] ++ [[0x41]]))).length = 4294967320 := by
    rw [gd3Body_length, unitCount, utf16Encode_replicate_ascii, List.length_replicate]
    rfl
  have hser := serialize_valid hugeTitleNotesInfo _ hfields hs
  rw [hbody] at hser
  have h24 : u32 4294967320 = 24 := by decide
  rw [h24] at hser
  have hfill : fillNotes sampleGlobals
      (VGMOPL3.construct libstdcxxGrowth ByteVec.empty hugeTitleNotesInfo).gd3_info_
      = some hugeTitleNotesInfo := by
    rw [construct_gd3]
    have hn : hugeTitleNotesInfo.notes ≠ [] := List.cons_ne_nil 0x41 []
    unfold fillNotes
    rw [if_neg hn]
  have hlenc := construct_length libstdcxxGrowth ByteVec.empty hugeTitleNotesInfo
  have hslept := construct_slept libstdcxxGrowth ByteVec.empty hugeTitleNotesInfo
  have hrun : runOps libstdcxxGrowth
      (VGMOPL3.construct libstdcxxGrowth ByteVec.empty hugeTitleNotesInfo) []
      = VGMOPL3.construct libstdcxxGrowth ByteVec.empty hugeTitleNotesInfo := rfl
  rw [hrun]
  generalize VGMOPL3.construct libstdcxxGrowth ByteVec.empty hugeTitleNotesInfo = c
    at hfill hlenc hslept
  obtain ⟨s', hdone, _, _⟩ := fin_done libstdcxxGrowth sampleGlobals c _ _ hfill hser
  have hst : (fin libstdcxxGrowth sampleGlobals c).state? = some s' := by rw [hdone]; rfl
  obtain ⟨g, buf, hfill2, hser2, _, hlen, hdrop, h14, _⟩ :=
    fin_done_layout libstdcxxGrowth sampleGlobals c s' hst (by omega)
  have hg : g = hugeTitleNotesInfo := by
    rw [hfill] at hfill2
    exact (Option.some.inj hfill2).symm
  rw [hg, hser] at hser2
  have hbuf := (Except.ok.inj hser2).symm
  have hL : (do_sleep libstdcxxGrowth c).dbuf_.data.length = 149 := by
    rw [(do_sleep_idle libstdcxxGrowth c hslept).1, hlenc]
  rw [hL] at hlen hdrop h14
  have h129 : u32 (149 - 0x14) = 129 := by decide
  rw [h129] at h14
  have hbl : buf.length = 4294967332 := by
    rw [hbuf]
    simp only [List.length_append, hbody]
    rfl
  have hf8 : field32 s'.dbuf_.data (149 + 8) = 24 := by
    rw [← field32_drop, hdrop, hbuf]
    exact field32_after8 _ _ _ _ _ _ _ _ 24 _ (by decide)
  refine ⟨s', hst, by rw [hlen, hbl], by rw [h14], ?_⟩
  rw [h14]
  show 0x14 + 129 + 12 + field32 s'.dbuf_.data (149 + 8) = 185
  rw [hf8]

/-! ## Calls after `fin` -/

theorem fillNotes_of_notes (G : Globals) (g : GD3Info) (h : g.notes ≠ []) :
    fillNotes G g = some g := by
  unfold fillNotes
  rw [if_neg h]

theorem takeWhile_append_stop (p : Nat → Bool) (a : Nat) (rest : List Nat) (ha : p a = false) :
    ∀ l : List Nat, (∀ x ∈ l, p x = true) → (l ++ a :: rest).takeWhile p = l := by
  intro l
  induction l with
  | nil =>
    intro _
    simp [List.takeWhile_cons, ha]
  | cons y ys ih =>
    intro h
    have hy : p y = true := h y (List.mem_cons_self _ _)
    rw [List.cons_append, List.takeWhile_cons, hy]
    simp only [if_true]
    rw [ih (fun x hx => h x (List.mem_cons_of_mem _ hx))]

/-- The function `basename` strips the directory path: a name without a slash is kept,
and everything up to the last slash before it is dropped. -/
theorem basename_strip (name : List Nat) (hne : name ≠ []) (hns : ∀ x ∈ name, x ≠ 0x2f) :
    basename name = name ∧ ∀ dir : List Nat, basename (dir ++ 0x2f :: name) = name := by
  have hrev : ∀ x ∈ name.reverse, (x != 0x2f) = true := by
    intro x hx
    simpa using hns x (List.mem_reverse.1 hx)
  have key : ∀ pre : List Nat, (pre ++ name ≠ []) →
      (pre = [] ∨ ∃ d, pre = d ++ [0x2f]) → basename (pre ++ name) = name := by
    intro pre hne2 hpre
    obtain ⟨x, xs, hx⟩ : ∃ x xs, name.reverse = x :: xs := by
      cases h : name.reverse with
      | nil => exact absurd (List.reverse_eq_nil_iff.1 h) hne
      | cons x xs => exact ⟨x, xs, rfl⟩
    have hx2 : (x == 0x2f) = false := by
      have := hrev x (by rw [hx]; exact List.mem_cons_self _ _)
      simpa using this
    have hdrop : ((pre ++ name).reverse.dropWhile (fun b => b == 0x2f)).reverse = pre ++ name := by
      rw [List.reverse_append, hx, List.cons_append, List.dropWhile_cons, hx2]
      simp only [Bool.false_eq_true, if_false]
      rw [← List.cons_append, ← hx, ← List.reverse_append, List.reverse_reverse]
    unfold basename
    rw [if_neg hne2]
    simp only []
    rw [hdrop, if_neg hne2]
    rcases hpre with rfl | ⟨d, rfl⟩
    · rw [List.nil_append, List.takeWhile_eq_self_iff.2 hrev, List.reverse_reverse]
    · have e : (d ++ [0x2f] ++ name).reverse = name.reverse ++ 0x2f :: d.reverse := by
        simp
      rw [e, takeWhile_append_stop _ _ _ (by decide) _ hrev, List.reverse_reverse]
  refine ⟨?_, ?_⟩
  · have := key [] (by simpa using hne) (Or.inl rfl)
    simpa using this
  · intro dir
    have := key (dir ++ [0x2f]) (by simp) (Or.inr ⟨dir, rfl⟩)
    simpa using this

theorem defaultNotes_eq (G : Globals) (bankTitle volModel : List Nat) :
    defaultNotes G bankTitle volModel
      = (attributionText (basename (cstr G.opt_input)) G.opt_bank (cstr bankTitle)
          G.opt_vol_model (cstr volModel)).take 255 := by
  have e : ascii "\r\nConverted with midi2vgm_opl3 - https://github.com/SudoMaker/midi2vgm\r\n- Filename: "
      = ascii "\r\nConverted with midi2vgm_opl3 - https://github.com/SudoMaker/midi2vgm\r\n"
        ++ ascii "- Filename: " := by
    decide
  unfold defaultNotes attributionText
  rw [e]

theorem fillNotes_empty (G : Globals) (g : GD3Info) (bankTitle volModel : List Nat)
    (hn : g.notes = []) (hin : G.opt_input ≠ [])
    (hb : tableAt G.g_embeddedBanks G.opt_bank = some bankTitle)
    (hv : tableAt volModelDescs G.opt_vol_model = some volModel) :
    fillNotes G g = some { g with notes := defaultNotes G bankTitle volModel } := by
  unfold fillNotes
  rw [if_pos hn, if_neg hin, hb, hv]

theorem write_gd3_of_fill (grow : Growth) (G : Globals) (s : VGMOPL3) (g : GD3Info)
    (hfill : fillNotes G s.gd3_info_ = some g) :
    (∀ buf, g.serialize = Except.ok buf →
      write_gd3 grow G s
        = Outcome.done { s with gd3_info_ := g, dbuf_ := s.dbuf_.insertEnd grow buf }) ∧
    (∀ e, g.serialize = Except.error e →
      write_gd3 grow G s = Outcome.threw e { s with gd3_info_ := g }) := by
  constructor
  · intro buf hser
    unfold write_gd3
    rw [hfill]
    simp only []
    rw [hser]
  · intro e hser
    unfold write_gd3
    rw [hfill]
    simp only []
    rw [hser]

/-- What `write_gd3` does with the notes: when `opt_input` is not empty and the bank index
and the volume-model index lie inside their tables, it serializes the metadata with the
notes field, if it was empty, replaced by the first 255 bytes of the attribution text
for the basename of `opt_input`, the bank index and title, and the volume-model index
and its entry of `volModelDescs`, which is the whole text when the text has at most 255
bytes; the other ten fields are unchanged, and a non-empty notes field is serialized as
given. The basename of a name without a slash, alone or after a directory path, is that
name. -/
theorem write_gd3_default_notes (grow : Growth) (G : Globals) (s : VGMOPL3)
    (bankTitle volModel : List Nat) (hin : G.opt_input ≠ [])
    (hb : tableAt G.g_embeddedBanks G.opt_bank = some bankTitle)
    (hv : tableAt volModelDescs G.opt_vol_model = some volModel) :
    ∃ g, fillNotes G s.gd3_info_ = some g ∧
      g = { s.gd3_info_ with notes := g.notes } ∧
      (s.gd3_info_.notes = [] →
        g.notes = (attributionText (basename (cstr G.opt_input)) G.opt_bank (cstr bankTitle)
          G.opt_vol_model (cstr volModel)).take 255 ∧
        ((attributionText (basename (cstr G.opt_input)) G.opt_bank (cstr bankTitle)
            G.opt_vol_model (cstr volModel)).length ≤ 255 →
          g.notes = attributionText (basename (cstr G.opt_input)) G.opt_bank (cstr bankTitle)
            G.opt_vol_model (cstr volModel))) ∧
      (s.gd3_info_.notes ≠ [] → g = s.gd3_info_) ∧
      (∀ buf, g.serialize = Except.ok buf →
        write_gd3 grow G s
          = Outcome.done { s with gd3_info_ := g, dbuf_ := s.dbuf_.insertEnd grow buf }) ∧
      (∀ e, g.serialize = Except.error e →
        write_gd3 grow G s = Outcome.threw e { s with gd3_info_ := g }) ∧
      (∀ name : List Nat, name ≠ [] → (∀ x ∈ name, x ≠ 0x2f) →
        (cstr G.opt_input = name ∨ ∃ dir, cstr G.opt_input = dir ++ 0x2f :: name) →
        basename (cstr G.opt_input) = name) := by
  have hbase : ∀ name : List Nat, name ≠ [] → (∀ x ∈ name, x ≠ 0x2f) →
      (cstr G.opt_input = name ∨ ∃ dir, cstr G.opt_input = dir ++ 0x2f :: name) →
      basename (cstr G.opt_input) = name := by
    intro name hne hns hp
    rcases hp with h | ⟨dir, h⟩
    · rw [h]
      exact (basename_strip name hne hns).1
    · rw [h]
      exact (basename_strip name hne hns).2 dir
  by_cases hn : s.gd3_info_.notes = []
  · have hfill := fillNotes_empty G s.gd3_info_ bankTitle volModel hn hin hb hv
    obtain ⟨h1, h2⟩ := write_gd3_of_fill grow G s _ hfill
    refine ⟨_, hfill, rfl, ?_, fun h => absurd hn h, h1, h2, hbase⟩
    intro _
    refine ⟨defaultNotes_eq G bankTitle volModel, fun hlen => ?_⟩
    show defaultNotes G bankTitle volModel = _
    rw [defaultNotes_eq, List.take_of_length_le hlen]
  · have hfill := fillNotes_of_notes G s.gd3_info_ hn
    obtain ⟨h1, h2⟩ := write_gd3_of_fill grow G s _ hfill
    exact ⟨_, hfill, rfl, fun h => absurd h hn, fun _ => rfl, h1, h2, hbase⟩

set_option maxRecDepth 100000 in
/-- C12. Default notes, where the code keeps to the claim and where it does not. For
`song.mid` and for `dir/song.mid`, bank 58 titled `Bank58` and volume model 0, the notes
are the whole attribution text, 176 bytes. For `dir/longer_song.mid` and volume model 9
the text has 262 bytes and the notes are its first 255 bytes, which end in the middle of
the volume-model line. For a file name of 179 bytes that is valid UTF-8 the 255th byte
falls inside a character: the notes end with the bytes `e3 81`, `serialize` throws
`incomplete conversion` and `fin` throws with it, nothing appended. -/
theorem default_notes_cut :
    (fillNotes sampleGlobals GD3Info.blank).map (fun g => g.notes)
      = some (attributionText (ascii "song.mid") 58 (ascii "Bank58") 0
          (ascii "AUTO: Automatically chosen by the bank used")) ∧
    (fillNotes { sampleGlobals with opt_input := ascii "dir/song.mid" } GD3Info.blank).map
        (fun g => g.notes)
      = some (attributionText (ascii "song.mid") 58 (ascii "Bank58") 0
          (ascii "AUTO: Automatically chosen by the bank used")) ∧
    (attributionText (ascii "song.mid") 58 (ascii "Bank58") 0
      (ascii "AUTO: Automatically chosen by the bank used")).length = 176 ∧
    basename (cstr longNotesGlobals.opt_input) = ascii "longer_song.mid" ∧
    tableAt volModelDescs longNotesGlobals.opt_vol_model
      = some (ascii "9X_GENERIC_FM: Approximated and shorted volume map table (Generic FM driver). Similar to general, but has less granularity") ∧
    (attributionText (ascii "longer_song.mid") 58 (ascii "Bank58") 9
      (ascii "9X_GENERIC_FM: Approximated and shorted volume map table (Generic FM driver). Similar to general, but has less granularity")).length
      = 262 ∧
    (fillNotes longNotesGlobals GD3Info.blank).map (fun g => g.notes)
      = some ((attributionText (ascii "longer_song.mid") 58 (ascii "Bank58") 9
          (ascii "9X_GENERIC_FM: Approximated and shorted volume map table (Generic FM driver). Similar to general, but has less granularity")).take 255) ∧
    (fillNotes longNotesGlobals GD3Info.blank).map (fun g => g.notes)
      ≠ some (attributionText (ascii "longer_song.mid") 58 (ascii "Bank58") 9
          (ascii "9X_GENERIC_FM: Approximated and shorted volume map table (Generic FM driver). Similar to general, but has less granularity")) ∧
    (fillNotes longNotesGlobals GD3Info.blank).map (fun g => g.notes.drop 230)
      = some (ascii "eral, but has less granul") ∧
    basename (cstr wideNameGlobals.opt_input)
      = utf8Encode (0x61 :: (List.replicate 58 0x3042 ++ [0x2e, 0x6d, 0x69, 0x64])) ∧
    (∀ c ∈ 0x61 :: (List.replicate 58 0x3042 ++ [0x2e, 0x6d, 0x69, 0x64]), IsScalar c) ∧
    wideNameGlobals.opt_input.length = 179 ∧
    (fillNotes wideNameGlobals GD3Info.blank).map (fun g => (g.notes.length, g.notes.drop 253))
      = some (255, [0xe3, 0x81]) ∧
    (fillNotes wideNameGlobals GD3Info.blank).map
        (fun g => match g.serialize with
          | Except.error e => some e
          | Except.ok _ => none)
      = some (some ConvError.incomplete_conversion) ∧
    ((fin libstdcxxGrowth wideNameGlobals freshBuilder).thrown?).map
        (fun p => (p.1, p.2.dbuf_.data.length))
      = some (ConvError.incomplete_conversion, 149) := by
  decide!

end Midi2Vgm
